import Mathlib

/-!
Verification of the rayuela content-management core (`app/crud/novel_crud.py`,
`app/routers/novels.py`) against its natural-language specification.

The CRUD layer is embedded shallowly: the three SQLAlchemy tables become lists
of records, a session becomes explicit state passing, and each CRUD static
method becomes a function from the database state (plus a logical timestamp
standing for `datetime.now`) to the new state and the method's return value.
The application session is built with `autoflush=False`
(`app/database/connection.py`, `get_session`), so a SQL aggregate query issued
between an ORM attribute assignment and the following `commit` sees the values
committed before the assignment; the embedding reproduces this read order.
-/

namespace Rayuela

/-! ## Word counting

`SceneCRUD.create` (novel_crud.py line 203) and `SceneCRUD.update` (line 267)
compute a scene's word count as `len(content.split()) if content else 0`.
`str.split()` with no argument splits on runs of whitespace and never yields
empty tokens; the Python conditional treats both `None` and `""` as falsy.
-/

/-- Python's whitespace test for `str.split()` (ASCII whitespace characters). -/
def pyIsSpace (c : Char) : Bool :=
  c == ' ' || c == '\t' || c == '\n' || c == '\r' || c == '\x0b' || c == '\x0c'

/-- Accumulator tokenizer for Python `str.split()`: split on whitespace runs,
dropping empty tokens. `acc` holds the reversed characters of the token being
built. -/
def pySplitAux : List Char → List Char → List (List Char)
  | [], acc => if acc.isEmpty then [] else [acc.reverse]
  | c :: cs, acc =>
    if pyIsSpace c then
      if acc.isEmpty then pySplitAux cs [] else acc.reverse :: pySplitAux cs []
    else
      pySplitAux cs (c :: acc)

/-- Python `s.split()` (no separator argument). -/
def pySplit (s : String) : List String :=
  (pySplitAux s.data []).map List.asString

/-- The source expression `len(content.split()) if content else 0`
(novel_crud.py lines 203 and 267). -/
def pyWordCount : Option String → Nat
  | none => 0
  | some s => if s = "" then 0 else (pySplit s).length

/-- Spec-side definition, following the spec's words: "splits text on
whitespace runs, counts non-empty tokens; null/empty text → 0". Splitting at
every whitespace character (`List.splitOnP`) and keeping only non-empty tokens
is exactly splitting on whitespace runs. -/
def specWordCount : Option String → Nat
  | none => 0
  | some s => ((s.data.splitOnP pyIsSpace).filter (fun t => !t.isEmpty)).length

/-- Number of non-empty tokens of a character list, spec-side. -/
def specTokL (cs : List Char) : Nat :=
  ((cs.splitOnP pyIsSpace).filter (fun t => !t.isEmpty)).length

/-- Number of non-empty tokens strictly after the leading (possibly empty)
token, spec-side. -/
def tailTokL (cs : List Char) : Nat :=
  (((cs.splitOnP pyIsSpace).tail).filter (fun t => !t.isEmpty)).length

theorem pySplitAux_length (cs : List Char) :
    (pySplitAux cs []).length = specTokL cs ∧
      ∀ acc, acc ≠ [] → (pySplitAux cs acc).length = 1 + tailTokL cs := by
  induction cs with
  | nil =>
    refine ⟨rfl, fun acc hacc => ?_⟩
    simp [pySplitAux, List.isEmpty_iff, hacc, tailTokL]
  | cons c cs ih =>
    obtain ⟨ihA, ihB⟩ := ih
    by_cases hc : pyIsSpace c
    · constructor
      · simp only [pySplitAux, hc, if_true, List.isEmpty_nil, ihA]
        simp [specTokL, List.splitOnP_cons, hc]
      · intro acc hacc
        simp only [pySplitAux, hc, if_true, List.isEmpty_iff, hacc, if_false,
          List.length_cons, ihA]
        simp [tailTokL, specTokL, List.splitOnP_cons, hc]
        omega
    · obtain ⟨t, ts, hts⟩ := List.exists_cons_of_ne_nil (List.splitOnP_ne_nil pyIsSpace cs)
      constructor
      · simp only [pySplitAux, hc, Bool.false_eq_true, if_false, List.isEmpty_nil]
        rw [ihB [c] (by simp)]
        simp [specTokL, List.splitOnP_cons, hc, hts, tailTokL]
        omega
      · intro acc hacc
        simp only [pySplitAux, hc, Bool.false_eq_true, if_false]
        rw [ihB (c :: acc) (by simp)]
        simp [tailTokL, List.splitOnP_cons, hc, hts]

theorem pyWordCount_eq_specWordCount (content : Option String) :
    pyWordCount content = specWordCount content := by
  cases content with
  | none => rfl
  | some s =>
    by_cases hs : s = ""
    · subst hs; rfl
    · simp only [pyWordCount, specWordCount, hs, if_false, pySplit, List.length_map]
      exact (pySplitAux_length s.data).1

/-! ## Data model

`app/models/novel.py`: three tables. Nullable text columns are `Option String`;
the nullable integer word-count columns are `Option Int` (SQL `SUM` ignores
`NULL`, and `scalar() or 0` maps an empty/`NULL` aggregate to 0). Timestamps
are a logical clock `Nat`; `datetime.now` is passed in as a parameter `t`.
Primary keys are drawn from a single autoincrement counter `nextId`. -/

structure Project where
  id : Nat
  title : String
  description : Option String
  author : Option String
  genre : Option String
  target_word_count : Option Int
  current_word_count : Option Int
  is_active : Bool
  created_at : Nat
  updated_at : Nat
deriving Repr, DecidableEq

structure Chapter where
  id : Nat
  title : String
  description : Option String
  order_index : Nat
  word_count : Option Int
  is_completed : Bool
  created_at : Nat
  updated_at : Nat
  project_id : Nat
deriving Repr, DecidableEq

structure Scene where
  id : Nat
  title : Option String
  content : Option String
  summary : Option String
  order_index : Nat
  word_count : Option Int
  notes : Option String
  is_completed : Bool
  created_at : Nat
  updated_at : Nat
  chapter_id : Nat
deriving Repr, DecidableEq

/-- The persistent store (the SQLite database reached through a session). -/
structure DB where
  projects : List Project
  chapters : List Chapter
  scenes : List Scene
  nextId : Nat
deriving Repr, DecidableEq

/-! ## Aggregates

`func.sum(Scene.word_count)` / `func.sum(Chapter.word_count)` filtered by the
parent id, with `scalar() or 0`: `SUM` skips `NULL` values and yields `NULL`
on an empty set, which `or 0` turns into 0 — i.e. the sum of the values with
`NULL` read as 0. -/

def sceneWcSumL (l : List Scene) (cid : Nat) : Int :=
  ((l.filter (fun s => s.chapter_id == cid)).map (fun s => s.word_count.getD 0)).sum

def chapterWcSumL (l : List Chapter) (pid : Nat) : Int :=
  ((l.filter (fun c => c.project_id == pid)).map (fun c => c.word_count.getD 0)).sum

/-! ## Generic update field sets

`ProjectCRUD.update`, `ChapterCRUD.update` and `SceneCRUD.update` take
`**kwargs` and run `setattr(obj, key, value)` for every pair whose key passes
`hasattr(obj, key)` (chapters and scenes additionally require
`key != 'order_index'`).  A kwargs entry is embedded as one constructor per
column attribute, plus `unknown` for any key that fails `hasattr` (relationship
attributes are not modelled). -/

inductive ProjectField where
  | id (v : Nat)
  | title (v : String)
  | description (v : Option String)
  | author (v : Option String)
  | genre (v : Option String)
  | target_word_count (v : Option Int)
  | current_word_count (v : Option Int)
  | is_active (v : Bool)
  | created_at (v : Nat)
  | updated_at (v : Nat)
  | unknown (key : String)
deriving Repr, DecidableEq

/-- One `setattr` step of `ProjectCRUD.update` (guard: `hasattr` only). -/
def projectSetField (p : Project) : ProjectField → Project
  | .id v => {p with id := v}
  | .title v => {p with title := v}
  | .description v => {p with description := v}
  | .author v => {p with author := v}
  | .genre v => {p with genre := v}
  | .target_word_count v => {p with target_word_count := v}
  | .current_word_count v => {p with current_word_count := v}
  | .is_active v => {p with is_active := v}
  | .created_at v => {p with created_at := v}
  | .updated_at v => {p with updated_at := v}
  | .unknown _ => p

def projectApplyFields (p : Project) (fs : List ProjectField) : Project :=
  fs.foldl projectSetField p

inductive ChapterField where
  | id (v : Nat)
  | title (v : String)
  | description (v : Option String)
  | order_index (v : Nat)
  | word_count (v : Option Int)
  | is_completed (v : Bool)
  | created_at (v : Nat)
  | updated_at (v : Nat)
  | project_id (v : Nat)
  | unknown (key : String)
deriving Repr, DecidableEq

/-- One `setattr` step of `ChapterCRUD.update`
(guard: `hasattr(chapter, key) and key != 'order_index'`). -/
def chapterSetField (c : Chapter) : ChapterField → Chapter
  | .id v => {c with id := v}
  | .title v => {c with title := v}
  | .description v => {c with description := v}
  | .order_index _ => c
  | .word_count v => {c with word_count := v}
  | .is_completed v => {c with is_completed := v}
  | .created_at v => {c with created_at := v}
  | .updated_at v => {c with updated_at := v}
  | .project_id v => {c with project_id := v}
  | .unknown _ => c

def chapterApplyFields (c : Chapter) (fs : List ChapterField) : Chapter :=
  fs.foldl chapterSetField c

inductive SceneField where
  | id (v : Nat)
  | title (v : Option String)
  | content (v : Option String)
  | summary (v : Option String)
  | order_index (v : Nat)
  | word_count (v : Option Int)
  | notes (v : Option String)
  | is_completed (v : Bool)
  | created_at (v : Nat)
  | updated_at (v : Nat)
  | chapter_id (v : Nat)
  | unknown (key : String)
deriving Repr, DecidableEq

/-- One `setattr` step of `SceneCRUD.update`
(guard: `hasattr(scene, key) and key != 'order_index'`). -/
def sceneSetField (s : Scene) : SceneField → Scene
  | .id v => {s with id := v}
  | .title v => {s with title := v}
  | .content v => {s with content := v}
  | .summary v => {s with summary := v}
  | .order_index _ => s
  | .word_count v => {s with word_count := v}
  | .notes v => {s with notes := v}
  | .is_completed v => {s with is_completed := v}
  | .created_at v => {s with created_at := v}
  | .updated_at v => {s with updated_at := v}
  | .chapter_id v => {s with chapter_id := v}
  | .unknown _ => s

def sceneApplyFields (s : Scene) (fs : List SceneField) : Scene :=
  fs.foldl sceneSetField s

/-- Whether a kwargs list contains the key `content`
(the `'content' in kwargs` test of `SceneCRUD.update`). -/
def sceneFieldIsContent : SceneField → Bool
  | .content _ => true
  | _ => false

/-! ## ProjectCRUD -/

/-- Embeds `ProjectCRUD.create` (novel_crud.py 10-22). Column defaults:
`target_word_count=80000`, `current_word_count=0`, `is_active=True`,
timestamps `func.now()`. -/
def projectCreate (db : DB) (title : String)
    (description author genre : Option String) (t : Nat) : DB × Project :=
  let p : Project :=
    { id := db.nextId, title := title, description := description,
      author := author, genre := genre, target_word_count := some 80000,
      current_word_count := some 0, is_active := true,
      created_at := t, updated_at := t }
  ({db with projects := db.projects ++ [p], nextId := db.nextId + 1}, p)

/-- Embeds `ProjectCRUD.get_by_id` (novel_crud.py 24-27). -/
def projectGetById (db : DB) (pid : Nat) : Option Project :=
  db.projects.find? (fun p => p.id == pid)

/-- Embeds `ProjectCRUD.get_all` (novel_crud.py 29-35). -/
def projectGetAll (db : DB) (active_only : Bool) : List Project :=
  if active_only then db.projects.filter (fun p => p.is_active) else db.projects

/-- Embeds `ProjectCRUD.update` (novel_crud.py 37-48). -/
def projectUpdate (db : DB) (pid : Nat) (fs : List ProjectField) (t : Nat) :
    DB × Option Project :=
  match db.projects.find? (fun p => p.id == pid) with
  | none => (db, none)
  | some p0 =>
    let tr := fun p => {projectApplyFields p fs with updated_at := t}
    ({db with projects := db.projects.map (fun p => if p.id == pid then tr p else p)},
     some (tr p0))

/-- Embeds `ProjectCRUD.delete` (novel_crud.py 50-59): soft delete. -/
def projectDelete (db : DB) (pid : Nat) (t : Nat) : DB × Bool :=
  match db.projects.find? (fun p => p.id == pid) with
  | none => (db, false)
  | some _ =>
    ({db with projects := db.projects.map (fun p =>
        if p.id == pid then {p with is_active := false, updated_at := t} else p)},
     true)

/-! ## ChapterCRUD -/

/-- Embeds `func.max(Chapter.order_index)` over one project, `scalar() or 0`. -/
def chapterMaxOrder (db : DB) (pid : Nat) : Nat :=
  (db.chapters.filter (fun c => c.project_id == pid)).foldl
    (fun m c => max m c.order_index) 0

/-- Embeds `ChapterCRUD.create` (novel_crud.py 63-80). -/
def chapterCreate (db : DB) (pid : Nat) (title : String)
    (description : Option String) (t : Nat) : DB × Chapter :=
  let ch : Chapter :=
    { id := db.nextId, title := title, description := description,
      order_index := chapterMaxOrder db pid + 1, word_count := some 0,
      is_completed := false, created_at := t, updated_at := t,
      project_id := pid }
  ({db with chapters := db.chapters ++ [ch], nextId := db.nextId + 1}, ch)

/-- Embeds `ChapterCRUD.get_by_id` (novel_crud.py 82-85). -/
def chapterGetById (db : DB) (cid : Nat) : Option Chapter :=
  db.chapters.find? (fun c => c.id == cid)

/-- Embeds `ChapterCRUD.update_order` (novel_crud.py 94-123). The two bulk `UPDATE`
statements touch every chapter row of the project whose `order_index` lies in
the shifted range; the moved chapter's own row (at `old_order`) matches
neither range. Because `updated_at` has `onupdate=func.now()`
(models/novel.py line 37), the compiled bulk `UPDATE` also sets
`updated_at = now()` on every shifted row. Afterwards the moved chapter gets
`new_order` and a fresh `updated_at`. -/
def chapterUpdateOrder (db : DB) (cid : Nat) (new_order : Nat) (t : Nat) :
    DB × Bool :=
  match db.chapters.find? (fun c => c.id == cid) with
  | none => (db, false)
  | some ch =>
    let old_order := ch.order_index
    let pid := ch.project_id
    let shifted :=
      if new_order > old_order then
        db.chapters.map (fun c =>
          if c.project_id = pid ∧ old_order < c.order_index ∧ c.order_index ≤ new_order then
            {c with order_index := c.order_index - 1, updated_at := t} else c)
      else
        db.chapters.map (fun c =>
          if c.project_id = pid ∧ new_order ≤ c.order_index ∧ c.order_index < old_order then
            {c with order_index := c.order_index + 1, updated_at := t} else c)
    let final := shifted.map (fun c =>
      if c.id == cid then {c with order_index := new_order, updated_at := t} else c)
    ({db with chapters := final}, true)

/-- Embeds `ChapterCRUD.update` (novel_crud.py 125-136). -/
def chapterUpdate (db : DB) (cid : Nat) (fs : List ChapterField) (t : Nat) :
    DB × Option Chapter :=
  match db.chapters.find? (fun c => c.id == cid) with
  | none => (db, none)
  | some c0 =>
    let tr := fun c => {chapterApplyFields c fs with updated_at := t}
    ({db with chapters := db.chapters.map (fun c => if c.id == cid then tr c else c)},
     some (tr c0))

/-- Embeds `ChapterCRUD._update_project_word_count` (novel_crud.py 161-171). Its
callers run it after a `commit`, so the aggregate reads committed rows. -/
def updateProjectWordCount (db : DB) (pid : Nat) (t : Nat) : DB :=
  let total := chapterWcSumL db.chapters pid
  match db.projects.find? (fun p => p.id == pid) with
  | none => db
  | some _ =>
    {db with projects := db.projects.map (fun p =>
      if p.id == pid then {p with current_word_count := some total, updated_at := t} else p)}

/-- Embeds `ChapterCRUD.delete` (novel_crud.py 138-159): hard delete, cascade to the
chapter's scenes (`cascade="all, delete-orphan"`), shift the following
siblings down (the reindex bulk `UPDATE` also stamps their `updated_at` via
the column's `onupdate`), then recompute the project's word count. -/
def chapterDelete (db : DB) (cid : Nat) (t : Nat) : DB × Bool :=
  match db.chapters.find? (fun c => c.id == cid) with
  | none => (db, false)
  | some ch =>
    let pid := ch.project_id
    let oidx := ch.order_index
    let remaining := db.chapters.filter (fun c => !(c.id == cid))
    let shifted := remaining.map (fun c =>
      if c.project_id = pid ∧ oidx < c.order_index then
        {c with order_index := c.order_index - 1, updated_at := t} else c)
    let db1 := {db with chapters := shifted,
                        scenes := db.scenes.filter (fun s => !(s.chapter_id == cid))}
    (updateProjectWordCount db1 pid t, true)

/-! ## SceneCRUD -/

/-- Embeds `func.max(Scene.order_index)` over one chapter, `scalar() or 0`. -/
def sceneMaxOrder (db : DB) (cid : Nat) : Nat :=
  (db.scenes.filter (fun s => s.chapter_id == cid)).foldl
    (fun m s => max m s.order_index) 0

/-- Embeds `SceneCRUD._update_chapter_word_count` (novel_crud.py 300-319), under the
application session's `autoflush=False` (`connection.py`, `get_session`): the
assignment `chapter.word_count = total_words` is pending and unflushed when
the project aggregate query runs, so `project_total` is computed from the
chapter rows as last committed — i.e. from `db.chapters` before the chapter's
new word count is applied. Flushing the changed chapter row fires the
`updated_at` column's `onupdate`, so the chapter's `updated_at` is stamped
along with its new word count. -/
def updateChapterWordCountScene (db : DB) (cid : Nat) (t : Nat) : DB :=
  let total := sceneWcSumL db.scenes cid
  match db.chapters.find? (fun c => c.id == cid) with
  | none => db
  | some ch =>
    let projTotal := chapterWcSumL db.chapters ch.project_id
    let chs := db.chapters.map (fun c =>
      if c.id == cid then {c with word_count := some total, updated_at := t} else c)
    match db.projects.find? (fun p => p.id == ch.project_id) with
    | none => {db with chapters := chs}
    | some _ =>
      {db with chapters := chs,
               projects := db.projects.map (fun p =>
                 if p.id == ch.project_id then
                   {p with current_word_count := some projTotal, updated_at := t}
                 else p)}

/-- Embeds `SceneCRUD.create` (novel_crud.py 189-211). `title or f"Scene {n}"` treats
`None` and `""` as falsy; the scene is committed before the rollup runs. -/
def sceneCreate (db : DB) (cid : Nat) (title content summary : Option String)
    (t : Nat) : DB × Scene :=
  let max_order := sceneMaxOrder db cid
  let s : Scene :=
    { id := db.nextId,
      title := some (match title with
        | some s => if s = "" then "Scene " ++ toString (max_order + 1) else s
        | none => "Scene " ++ toString (max_order + 1)),
      content := content, summary := summary, chapter_id := cid,
      order_index := max_order + 1,
      word_count := some (pyWordCount content : Int),
      notes := none, is_completed := false, created_at := t, updated_at := t }
  let db1 := {db with scenes := db.scenes ++ [s], nextId := db.nextId + 1}
  (updateChapterWordCountScene db1 cid t, s)

/-- Embeds `SceneCRUD.get_by_id` (novel_crud.py 213-216). -/
def sceneGetById (db : DB) (sid : Nat) : Option Scene :=
  db.scenes.find? (fun s => s.id == sid)

/-- Embeds `SceneCRUD.update_order` (novel_crud.py 225-254), same shape as
`ChapterCRUD.update_order`, including the `onupdate`-driven `updated_at`
rewrite on shifted rows (models/novel.py line 62). -/
def sceneUpdateOrder (db : DB) (sid : Nat) (new_order : Nat) (t : Nat) :
    DB × Bool :=
  match db.scenes.find? (fun s => s.id == sid) with
  | none => (db, false)
  | some sc =>
    let old_order := sc.order_index
    let cid := sc.chapter_id
    let shifted :=
      if new_order > old_order then
        db.scenes.map (fun s =>
          if s.chapter_id = cid ∧ old_order < s.order_index ∧ s.order_index ≤ new_order then
            {s with order_index := s.order_index - 1, updated_at := t} else s)
      else
        db.scenes.map (fun s =>
          if s.chapter_id = cid ∧ new_order ≤ s.order_index ∧ s.order_index < old_order then
            {s with order_index := s.order_index + 1, updated_at := t} else s)
    let final := shifted.map (fun s =>
      if s.id == sid then {s with order_index := new_order, updated_at := t} else s)
    ({db with scenes := final}, true)

/-- Embeds `SceneCRUD.update` (novel_crud.py 256-275): apply the kwargs, recompute
the word count when the kwargs contain `content`, commit, then run the rollup
with the (possibly updated) `scene.chapter_id`. -/
def sceneUpdate (db : DB) (sid : Nat) (fs : List SceneField) (t : Nat) :
    DB × Option Scene :=
  match db.scenes.find? (fun s => s.id == sid) with
  | none => (db, none)
  | some s0 =>
    let tr := fun s =>
      let s1 := sceneApplyFields s fs
      let s2 := if fs.any sceneFieldIsContent then
          {s1 with word_count := some (pyWordCount s1.content : Int)}
        else s1
      {s2 with updated_at := t}
    let db1 := {db with scenes := db.scenes.map (fun s => if s.id == sid then tr s else s)}
    (updateChapterWordCountScene db1 (tr s0).chapter_id t, some (tr s0))

/-- Embeds `SceneCRUD.delete` (novel_crud.py 277-298): hard delete, shift following
siblings down (stamping their `updated_at` via the column's `onupdate`),
then the rollup. -/
def sceneDelete (db : DB) (sid : Nat) (t : Nat) : DB × Bool :=
  match db.scenes.find? (fun s => s.id == sid) with
  | none => (db, false)
  | some sc =>
    let cid := sc.chapter_id
    let oidx := sc.order_index
    let remaining := db.scenes.filter (fun s => !(s.id == sid))
    let shifted := remaining.map (fun s =>
      if s.chapter_id = cid ∧ oidx < s.order_index then
        {s with order_index := s.order_index - 1, updated_at := t} else s)
    let db1 := {db with scenes := shifted}
    (updateChapterWordCountScene db1 cid t, true)

/-! ## The Ordering Engine on one sibling group

`ChapterCRUD.create` / `update_order` / `delete` (and the structurally
identical `SceneCRUD` versions) only ever read and write rows of a single
sibling group: every query in them filters on the parent id
(`Chapter.project_id == project_id`, resp. `Scene.chapter_id == chapter_id`).
For the density invariant they are therefore embedded on the sibling group
itself: an item keeps just its primary key and its `order_index`, and the
group carries the autoincrement counter. `groupAppend` is the order-index
part of `create` (`max(order_index) or 0` plus one), `groupMove` is
`update_order`, and `groupRemove` is `delete`'s sibling shift. -/

structure SibItem where
  id : Nat
  order : Nat
deriving Repr, DecidableEq

structure Group where
  items : List SibItem
  nextId : Nat
deriving Repr, DecidableEq

/-- Embeds `func.max(...order_index).scalar() or 0` over the group. -/
def maxOrder (l : List SibItem) : Nat :=
  l.foldl (fun m it => max m it.order) 0

/-- Embeds `ChapterCRUD.create` lines 67-75 / `SceneCRUD.create` lines 193-202,
restricted to the order index: the new row gets `max_order + 1`. -/
def groupAppend (g : Group) : Group :=
  ⟨g.items ++ [⟨g.nextId, maxOrder g.items + 1⟩], g.nextId + 1⟩

/-- Embeds `ChapterCRUD.update_order` lines 94-123 / `SceneCRUD.update_order` lines
225-254 on the group: bulk-shift the rows in the affected range, then write
`new_order` on the moved row. -/
def groupMove (g : Group) (i new_order : Nat) : Group × Bool :=
  match g.items.find? (fun it => it.id == i) with
  | none => (g, false)
  | some it0 =>
    let old_order := it0.order
    let shifted :=
      if new_order > old_order then
        g.items.map (fun c =>
          if old_order < c.order ∧ c.order ≤ new_order then
            {c with order := c.order - 1} else c)
      else
        g.items.map (fun c =>
          if new_order ≤ c.order ∧ c.order < old_order then
            {c with order := c.order + 1} else c)
    (⟨shifted.map (fun c => if c.id == i then {c with order := new_order} else c),
      g.nextId⟩, true)

/-- Embeds `ChapterCRUD.delete` lines 138-159 / `SceneCRUD.delete` lines 277-298 on
the group: drop the row, shift every row above it down by one. -/
def groupRemove (g : Group) (i : Nat) : Group × Bool :=
  match g.items.find? (fun it => it.id == i) with
  | none => (g, false)
  | some it0 =>
    let remaining := g.items.filter (fun c => !(c.id == i))
    (⟨remaining.map (fun c =>
        if it0.order < c.order then {c with order := c.order - 1} else c),
      g.nextId⟩, true)

inductive GroupOp where
  | create
  | move (id new_order : Nat)
  | remove (id : Nat)
deriving Repr, DecidableEq

def applyOp (g : Group) : GroupOp → Group
  | .create => groupAppend g
  | .move i new_order => (groupMove g i new_order).1
  | .remove i => (groupRemove g i).1

/-- The claim's precondition on a single operation: a `Move` must target an
existing item with `1 ≤ new_order ≤ sibling count`; `create` and `delete` are
unrestricted. -/
def validOp (g : Group) : GroupOp → Prop
  | .create => True
  | .move i new_order =>
      (∃ it ∈ g.items, it.id = i) ∧ 1 ≤ new_order ∧ new_order ≤ g.items.length
  | .remove _ => True

instance (g : Group) (op : GroupOp) : Decidable (validOp g op) := by
  cases op with
  | create => exact inferInstanceAs (Decidable True)
  | move i new_order => exact inferInstanceAs (Decidable (_ ∧ _))
  | remove i => exact inferInstanceAs (Decidable True)

def runOps (g : Group) : List GroupOp → Group
  | [] => g
  | op :: ops => runOps (applyOp g op) ops

def validSeq (g : Group) : List GroupOp → Prop
  | [] => True
  | op :: ops => validOp g op ∧ validSeq (applyOp g op) ops

instance instDecValidSeq : (g : Group) → (ops : List GroupOp) → Decidable (validSeq g ops)
  | _, [] => inferInstanceAs (Decidable True)
  | g, op :: ops =>
    haveI := instDecValidSeq (applyOp g op) ops
    inferInstanceAs (Decidable (_ ∧ _))

/-- The group as first materialized: no rows. -/
def groupEmpty : Group := ⟨[], 0⟩

/-- Number of items of the group carrying order index `k`. -/
def cntO (l : List SibItem) (k : Nat) : Nat :=
  l.countP (fun it => it.order == k)

/-- Same, excluding the item with primary key `i`. -/
def cntOX (l : List SibItem) (i k : Nat) : Nat :=
  l.countP (fun it => it.order == k && !(it.id == i))

/-- Number of items with primary key `i`. -/
def cntId (l : List SibItem) (i : Nat) : Nat :=
  l.countP (fun it => it.id == i)

/-- The spec's density invariant: each order index in `1..count` occurs
exactly once, and no other value occurs. -/
def Dense (l : List SibItem) : Prop :=
  ∀ k, cntO l k = if 1 ≤ k ∧ k ≤ l.length then 1 else 0

/-- Well-formedness provided by the store: primary keys are unique and below
the autoincrement counter. -/
def GroupWf (g : Group) : Prop :=
  (g.items.map SibItem.id).Nodup ∧ ∀ it ∈ g.items, it.id < g.nextId

/-! ### Counting toolkit -/

theorem countP_split {α : Type} (l : List α) (p q : α → Bool) :
    l.countP p
      = l.countP (fun a => p a && q a) + l.countP (fun a => p a && !q a) := by
  induction l with
  | nil => rfl
  | cons a l ih =>
    simp only [List.countP_cons, ih]
    by_cases h1 : p a <;> by_cases h2 : q a <;> simp [h1, h2] <;> omega

theorem countP_and_unique (l : List SibItem) (i : Nat) (x : SibItem)
    (hu : (l.map SibItem.id).Nodup) (hx : x ∈ l) (hxi : x.id = i)
    (p : SibItem → Bool) :
    l.countP (fun it => p it && it.id == i) = if p x then 1 else 0 := by
  induction l with
  | nil => cases hx
  | cons a l ih =>
    simp only [List.map_cons, List.nodup_cons] at hu
    obtain ⟨ha, hu⟩ := hu
    rcases List.mem_cons.mp hx with rfl | hx'
    · have htail : l.countP (fun it => p it && it.id == i) = 0 := by
        rw [List.countP_eq_zero]
        intro b hb
        simp only [Bool.and_eq_true, beq_iff_eq, not_and]
        intro _ hbid
        exact ha (by rw [hxi, ← hbid]; exact List.mem_map_of_mem SibItem.id hb)
      simp only [List.countP_cons, htail, hxi, Nat.zero_add]
      simp
    · have hai : ¬ a.id = i := by
        intro hcon
        exact ha (by rw [hcon, ← hxi]; exact List.mem_map_of_mem SibItem.id hx')
      simp only [List.countP_cons, ih hu hx']
      simp [hai]

theorem cntId_eq_one (l : List SibItem) (i : Nat) (x : SibItem)
    (hu : (l.map SibItem.id).Nodup) (hx : x ∈ l) (hxi : x.id = i) :
    cntId l i = 1 := by
  have h := countP_and_unique l i x hu hx hxi (fun _ => true)
  simpa [cntId] using h

/-- Counts with the uniquely identified item `x` removed from the count. -/
theorem cntO_decomp (l : List SibItem) (i k : Nat) (x : SibItem)
    (hu : (l.map SibItem.id).Nodup) (hx : x ∈ l) (hxi : x.id = i) :
    cntO l k = cntOX l i k + if x.order = k then 1 else 0 := by
  have h1 := countP_split l (fun it => it.order == k) (fun it => it.id == i)
  have h2 := countP_and_unique l i x hu hx hxi (fun it => it.order == k)
  simp only [beq_iff_eq] at h2
  simp only [cntO, cntOX]
  rw [h1, h2, Nat.add_comm]

theorem order_bounds_of_dense (l : List SibItem) (hd : Dense l) (x : SibItem)
    (hx : x ∈ l) : 1 ≤ x.order ∧ x.order ≤ l.length := by
  have hpos : 0 < cntO l x.order := by
    simp only [cntO]
    exact List.countP_pos_iff.mpr ⟨x, hx, by simp⟩
  by_cases hc : 1 ≤ x.order ∧ x.order ≤ l.length
  · exact hc
  · have h0 := hd x.order
    rw [if_neg hc] at h0
    omega

theorem foldl_max_le (l : List SibItem) (c : Nat) :
    ∀ b, b ≤ c → (∀ it ∈ l, it.order ≤ c) →
      l.foldl (fun m it => max m it.order) b ≤ c := by
  induction l with
  | nil => intro b hb _; simpa using hb
  | cons a l ih =>
    intro b hb h
    simp only [List.foldl_cons]
    exact ih (max b a.order) (by have := h a (by simp); omega)
      (fun it hit => h it (by simp [hit]))

theorem init_le_foldl_max (l : List SibItem) :
    ∀ b, b ≤ l.foldl (fun m it => max m it.order) b := by
  induction l with
  | nil => intro b; simp
  | cons a l ih =>
    intro b
    simp only [List.foldl_cons]
    calc b ≤ max b a.order := by omega
      _ ≤ _ := ih (max b a.order)

theorem le_foldl_max (l : List SibItem) (x : SibItem) :
    ∀ b, x ∈ l → x.order ≤ l.foldl (fun m it => max m it.order) b := by
  induction l with
  | nil => intro b hx; cases hx
  | cons a l ih =>
    intro b hx
    simp only [List.foldl_cons]
    rcases List.mem_cons.mp hx with rfl | hx'
    · calc x.order ≤ max b x.order := by omega
        _ ≤ _ := init_le_foldl_max l (max b x.order)
    · exact ih (max b a.order) hx'

theorem maxOrder_eq_length (l : List SibItem) (hd : Dense l) :
    maxOrder l = l.length := by
  cases hl : l.length with
  | zero =>
    have : l = [] := List.length_eq_zero.mp hl
    subst this; rfl
  | succ m =>
    have hub : ∀ it ∈ l, it.order ≤ l.length := fun it hit =>
      (order_bounds_of_dense l hd it hit).2
    have h1 : maxOrder l ≤ l.length := foldl_max_le l l.length 0 (Nat.zero_le _) hub
    have h2 : 0 < cntO l l.length := by
      rw [hd l.length, if_pos ⟨by omega, le_refl _⟩]; omega
    have h3 : ∃ x ∈ l, x.order = l.length := by
      have h2' : 0 < l.countP (fun it => it.order == l.length) := h2
      simpa using List.countP_pos_iff.mp h2'
    obtain ⟨x, hx, hxo⟩ := h3
    have h4 : x.order ≤ maxOrder l := le_foldl_max l x 0 hx
    omega

theorem countP_map_eq {α β : Type} (l : List α) (f : α → β) (p : β → Bool)
    (q : α → Bool) (h : ∀ a ∈ l, p (f a) = q a) :
    (l.map f).countP p = l.countP q := by
  rw [List.countP_map]
  exact List.countP_congr (fun a ha => by
    simp only [Function.comp_apply]
    rw [h a ha])

theorem countP_constand {α : Type} (l : List α) (b : Bool) (q : α → Bool) :
    l.countP (fun a => b && q a) = if b then l.countP q else 0 := by
  cases b <;> simp

/-- Effect of the "shift down by one" bulk update restricted to the order
range `(a, b]` on the number of rows at order `k` (among rows satisfying a
side predicate `q`). -/
theorem countP_shift_down (l : List SibItem) (q : SibItem → Bool) (a b k : Nat) :
    l.countP (fun it =>
        (if a < it.order ∧ it.order ≤ b then it.order - 1 else it.order) == k && q it)
      = (if a < k + 1 ∧ k + 1 ≤ b then
            l.countP (fun it => it.order == k + 1 && q it) else 0)
        + (if ¬(a < k ∧ k ≤ b) then
            l.countP (fun it => it.order == k && q it) else 0) := by
  induction l with
  | nil => simp
  | cons x l ih =>
    simp only [List.countP_cons, ih]
    rcases Bool.eq_false_or_eq_true (q x) with hq | hq
    · simp only [hq, Bool.and_true, beq_iff_eq]
      split_ifs <;> omega
    · simp only [hq, Bool.and_false, Bool.false_eq_true, if_false]
      split_ifs <;> omega

/-- Same for the "shift up by one" bulk update on the range `[a, b)`. -/
theorem countP_shift_up (l : List SibItem) (q : SibItem → Bool) (a b k : Nat) :
    l.countP (fun it =>
        (if a ≤ it.order ∧ it.order < b then it.order + 1 else it.order) == k && q it)
      = (if a ≤ k - 1 ∧ k - 1 < b ∧ 1 ≤ k then
            l.countP (fun it => it.order == k - 1 && q it) else 0)
        + (if ¬(a ≤ k ∧ k < b) then
            l.countP (fun it => it.order == k && q it) else 0) := by
  induction l with
  | nil => simp
  | cons x l ih =>
    simp only [List.countP_cons, ih]
    rcases Bool.eq_false_or_eq_true (q x) with hq | hq
    · simp only [hq, Bool.and_true, beq_iff_eq]
      split_ifs <;> omega
    · simp only [hq, Bool.and_false, Bool.false_eq_true, if_false]
      split_ifs <;> omega

/-- Same for the unbounded "shift everything above `a` down" update used by
delete. -/
theorem countP_shift_down_all (l : List SibItem) (q : SibItem → Bool) (a k : Nat) :
    l.countP (fun it =>
        (if a < it.order then it.order - 1 else it.order) == k && q it)
      = (if a < k + 1 then l.countP (fun it => it.order == k + 1 && q it) else 0)
        + (if ¬(a < k) then l.countP (fun it => it.order == k && q it) else 0) := by
  induction l with
  | nil => simp
  | cons x l ih =>
    simp only [List.countP_cons, ih]
    rcases Bool.eq_false_or_eq_true (q x) with hq | hq
    · simp only [hq, Bool.and_true, beq_iff_eq]
      split_ifs <;> omega
    · simp only [hq, Bool.and_false, Bool.false_eq_true, if_false]
      split_ifs <;> omega

/-! ### The three operations preserve density -/

theorem groupAppend_dense (g : Group) (hd : Dense g.items) :
    Dense (groupAppend g).items := by
  intro k
  have hmax := maxOrder_eq_length g.items hd
  have hk := hd k
  simp only [cntO] at hk
  simp only [groupAppend, cntO, List.countP_append, List.length_append,
    List.countP_cons, List.countP_nil, List.length_cons, List.length_nil,
    beq_iff_eq]
  split_ifs at hk ⊢ <;> omega

/-- Count at order `k` after the two updates of `update_order`, downward
branch: the range shift followed by the id-targeted write of `new_order`. -/
theorem cntO_move_map_down (l : List SibItem) (i old_order new_order k : Nat) :
    cntO ((l.map (fun c =>
        if old_order < c.order ∧ c.order ≤ new_order then
          {c with order := c.order - 1} else c)).map
        (fun c => if c.id == i then {c with order := new_order} else c)) k
      = (if new_order = k then cntId l i else 0)
        + (if old_order < k + 1 ∧ k + 1 ≤ new_order then cntOX l i (k + 1) else 0)
        + (if ¬(old_order < k ∧ k ≤ new_order) then cntOX l i k else 0) := by
  induction l with
  | nil => simp [cntO, cntId, cntOX]
  | cons x l ih =>
    simp only [List.map_cons, cntO, cntId, cntOX, List.countP_cons] at ih ⊢
    rw [ih]
    by_cases h1 : old_order < x.order ∧ x.order ≤ new_order <;>
      by_cases h2 : x.id = i <;>
      simp [h1, h2] <;> split_ifs <;> omega

/-- Same, upward branch. -/
theorem cntO_move_map_up (l : List SibItem) (i old_order new_order k : Nat) :
    cntO ((l.map (fun c =>
        if new_order ≤ c.order ∧ c.order < old_order then
          {c with order := c.order + 1} else c)).map
        (fun c => if c.id == i then {c with order := new_order} else c)) k
      = (if new_order = k then cntId l i else 0)
        + (if new_order ≤ k - 1 ∧ k - 1 < old_order ∧ 1 ≤ k then cntOX l i (k - 1) else 0)
        + (if ¬(new_order ≤ k ∧ k < old_order) then cntOX l i k else 0) := by
  induction l with
  | nil => simp [cntO, cntId, cntOX]
  | cons x l ih =>
    simp only [List.map_cons, cntO, cntId, cntOX, List.countP_cons] at ih ⊢
    rw [ih]
    by_cases h1 : new_order ≤ x.order ∧ x.order < old_order <;>
      by_cases h2 : x.id = i <;>
      simp [h1, h2] <;> split_ifs <;> omega

/-- Count at order `k` after `delete`: the row is gone and every row above it
shifted down by one. -/
theorem cntO_remove_map (l : List SibItem) (i oidx k : Nat) :
    cntO ((l.filter (fun c => !(c.id == i))).map
        (fun c => if oidx < c.order then {c with order := c.order - 1} else c)) k
      = (if oidx < k + 1 then cntOX l i (k + 1) else 0)
        + (if ¬(oidx < k) then cntOX l i k else 0) := by
  induction l with
  | nil => simp [cntO, cntOX]
  | cons x l ih =>
    simp only [cntO, cntOX, List.countP_cons] at ih ⊢
    simp only [List.filter_cons]
    by_cases h2 : x.id = i
    · rw [if_neg (by simp [h2]), ih]
      have e1 : (x.order == k + 1 && !(x.id == i)) = false := by simp [h2]
      have e0 : (x.order == k && !(x.id == i)) = false := by simp [h2]
      rw [e1, e0]
      simp only [Bool.false_eq_true, if_false, Nat.add_zero]
    · rw [if_pos (by simp [h2]), List.map_cons, List.countP_cons, ih]
      have e1 : (x.order == k + 1 && !(x.id == i)) = (x.order == k + 1) := by simp [h2]
      have e0 : (x.order == k && !(x.id == i)) = (x.order == k) := by simp [h2]
      rw [e1, e0]
      by_cases h1 : oidx < x.order <;> simp [h1] <;> split_ifs <;> omega

theorem groupMove_dense (g : Group) (i new_order : Nat) (hwf : GroupWf g)
    (hd : Dense g.items) (hex : ∃ it ∈ g.items, it.id = i)
    (hlo : 1 ≤ new_order) (hhi : new_order ≤ g.items.length) :
    Dense (groupMove g i new_order).1.items := by
  obtain ⟨hu, _⟩ := hwf
  obtain ⟨x, hx, hxi⟩ := hex
  have hfind : (g.items.find? (fun it => it.id == i)).isSome :=
    List.find?_isSome.mpr ⟨x, hx, by simp [hxi]⟩
  obtain ⟨it0, hit0⟩ := Option.isSome_iff_exists.mp hfind
  have hit0mem : it0 ∈ g.items := List.mem_of_find?_eq_some hit0
  have hit0id : it0.id = i := by simpa using List.find?_some hit0
  have hbounds := order_bounds_of_dense g.items hd it0 hit0mem
  have e1 := cntId_eq_one g.items i it0 hu hit0mem hit0id
  have d1 := cntO_decomp g.items i (0 + 0) it0 hu hit0mem hit0id
  simp only [groupMove, hit0]
  by_cases hbr : new_order > it0.order
  · rw [if_pos hbr]
    intro k
    have hcnt := cntO_move_map_down g.items i it0.order new_order k
    have dk := cntO_decomp g.items i k it0 hu hit0mem hit0id
    have dk1 := cntO_decomp g.items i (k + 1) it0 hu hit0mem hit0id
    have hdk := hd k
    have hdk1 := hd (k + 1)
    rw [hcnt, e1]
    simp only [List.length_map]
    split_ifs at dk dk1 hdk hdk1 ⊢ <;> omega
  · rw [if_neg hbr]
    intro k
    have hcnt := cntO_move_map_up g.items i it0.order new_order k
    have dk := cntO_decomp g.items i k it0 hu hit0mem hit0id
    have dk1 := cntO_decomp g.items i (k - 1) it0 hu hit0mem hit0id
    have hdk := hd k
    have hdk1 := hd (k - 1)
    rw [hcnt, e1]
    simp only [List.length_map]
    split_ifs at dk dk1 hdk hdk1 ⊢ <;> omega

theorem groupRemove_dense (g : Group) (i : Nat) (hwf : GroupWf g)
    (hd : Dense g.items) : Dense (groupRemove g i).1.items := by
  obtain ⟨hu, _⟩ := hwf
  cases hfind : g.items.find? (fun it => it.id == i) with
  | none => simpa [groupRemove, hfind] using hd
  | some it0 =>
    have hit0mem : it0 ∈ g.items := List.mem_of_find?_eq_some hfind
    have hit0id : it0.id = i := by simpa using List.find?_some hfind
    have hbounds := order_bounds_of_dense g.items hd it0 hit0mem
    have e1 := cntId_eq_one g.items i it0 hu hit0mem hit0id
    have hlen : (g.items.filter (fun c => !(c.id == i))).length
        = g.items.length - 1 := by
      have hsplit := countP_split g.items (fun _ => true) (fun c => c.id == i)
      simp only [List.countP_true, Bool.true_and] at hsplit
      simp only [cntId] at e1
      rw [← List.countP_eq_length_filter]
      omega
    simp only [groupRemove, hfind]
    intro k
    have hcnt := cntO_remove_map g.items i it0.order k
    have dk := cntO_decomp g.items i k it0 hu hit0mem hit0id
    have dk1 := cntO_decomp g.items i (k + 1) it0 hu hit0mem hit0id
    have hdk := hd k
    have hdk1 := hd (k + 1)
    rw [hcnt]
    simp only [List.length_map, hlen]
    split_ifs at dk dk1 hdk hdk1 ⊢ <;> omega

/-! ### The three operations preserve well-formedness of the primary keys -/

theorem ids_map_of_id_preserving (l : List SibItem) (f : SibItem → SibItem)
    (hf : ∀ c, (f c).id = c.id) :
    (l.map f).map SibItem.id = l.map SibItem.id := by
  rw [List.map_map]
  exact List.map_congr_left (fun c _ => hf c)

theorem bound_map_of_id_preserving (l : List SibItem) (nid : Nat)
    (f : SibItem → SibItem) (hf : ∀ c, (f c).id = c.id)
    (hb : ∀ it ∈ l, it.id < nid) : ∀ it ∈ l.map f, it.id < nid := by
  intro it hit
  obtain ⟨c, hc, rfl⟩ := List.mem_map.mp hit
  rw [hf c]
  exact hb c hc

theorem groupAppend_wf (g : Group) (hwf : GroupWf g) : GroupWf (groupAppend g) := by
  obtain ⟨hu, hb⟩ := hwf
  constructor
  · simp only [groupAppend, List.map_append, List.map_cons, List.map_nil]
    refine List.Nodup.append hu (List.nodup_singleton _) ?_
    intro b hb1 hb2
    obtain ⟨it, hit, rfl⟩ := List.mem_map.mp hb1
    have := hb it hit
    simp only [List.mem_singleton] at hb2
    omega
  · intro it hit
    simp only [groupAppend, List.mem_append, List.mem_singleton] at hit ⊢
    rcases hit with hit | rfl
    · have := hb it hit
      omega
    · simp

theorem groupMove_wf (g : Group) (i new_order : Nat) (hwf : GroupWf g) :
    GroupWf (groupMove g i new_order).1 := by
  cases hfind : g.items.find? (fun it => it.id == i) with
  | none => simpa [groupMove, hfind] using hwf
  | some it0 =>
    obtain ⟨hu, hb⟩ := hwf
    have hf2 : ∀ c : SibItem,
        ((if c.id == i then {c with order := new_order} else c) : SibItem).id = c.id := by
      intro c
      by_cases h : c.id = i <;> simp [h]
    simp only [groupMove, hfind]
    by_cases hbr : new_order > it0.order
    · rw [if_pos hbr]
      have hf1 : ∀ c : SibItem,
          ((if it0.order < c.order ∧ c.order ≤ new_order then
            {c with order := c.order - 1} else c) : SibItem).id = c.id := by
        intro c
        by_cases h : it0.order < c.order ∧ c.order ≤ new_order <;> simp [h]
      constructor
      · rw [ids_map_of_id_preserving _ _ hf2, ids_map_of_id_preserving _ _ hf1]
        exact hu
      · exact bound_map_of_id_preserving _ _ _ hf2
          (bound_map_of_id_preserving _ _ _ hf1 hb)
    · rw [if_neg hbr]
      have hf1 : ∀ c : SibItem,
          ((if new_order ≤ c.order ∧ c.order < it0.order then
            {c with order := c.order + 1} else c) : SibItem).id = c.id := by
        intro c
        by_cases h : new_order ≤ c.order ∧ c.order < it0.order <;> simp [h]
      constructor
      · rw [ids_map_of_id_preserving _ _ hf2, ids_map_of_id_preserving _ _ hf1]
        exact hu
      · exact bound_map_of_id_preserving _ _ _ hf2
          (bound_map_of_id_preserving _ _ _ hf1 hb)

theorem groupRemove_wf (g : Group) (i : Nat) (hwf : GroupWf g) :
    GroupWf (groupRemove g i).1 := by
  cases hfind : g.items.find? (fun it => it.id == i) with
  | none => simpa [groupRemove, hfind] using hwf
  | some it0 =>
    obtain ⟨hu, hb⟩ := hwf
    have hf1 : ∀ c : SibItem,
        ((if it0.order < c.order then {c with order := c.order - 1} else c)
          : SibItem).id = c.id := by
      intro c
      by_cases h : it0.order < c.order <;> simp [h]
    simp only [groupRemove, hfind]
    constructor
    · rw [ids_map_of_id_preserving _ _ hf1]
      exact List.Nodup.sublist
        ((List.filter_sublist g.items).map SibItem.id) hu
    · exact bound_map_of_id_preserving _ _ _ hf1
        (fun it hit => hb it (List.mem_of_mem_filter hit))

/-! ### Density along any valid operation sequence -/

theorem applyOp_preserves (g : Group) (op : GroupOp) (hwf : GroupWf g)
    (hd : Dense g.items) (hv : validOp g op) :
    GroupWf (applyOp g op) ∧ Dense (applyOp g op).items := by
  cases op with
  | create => exact ⟨groupAppend_wf g hwf, groupAppend_dense g hd⟩
  | move i new_order =>
    obtain ⟨hex, hlo, hhi⟩ := hv
    exact ⟨groupMove_wf g i new_order hwf,
      groupMove_dense g i new_order hwf hd hex hlo hhi⟩
  | remove i => exact ⟨groupRemove_wf g i hwf, groupRemove_dense g i hwf hd⟩

theorem runOps_preserves (ops : List GroupOp) :
    ∀ g, GroupWf g → Dense g.items → validSeq g ops →
      GroupWf (runOps g ops) ∧ Dense (runOps g ops).items := by
  induction ops with
  | nil => intro g hwf hd _; exact ⟨hwf, hd⟩
  | cons op ops ih =>
    intro g hwf hd hv
    obtain ⟨hv1, hv2⟩ := hv
    obtain ⟨hwf', hd'⟩ := applyOp_preserves g op hwf hd hv1
    exact ih (applyOp g op) hwf' hd' hv2

/-! ## Surface layer: `delete_project` (app/routers/novels.py 120-164) -/

inductive ApiError where
  | unprocessable (detail : String)
  | notFound (detail : String)
  | badRequest (detail : String)
  | internal (detail : String)
deriving Repr, DecidableEq

inductive ApiResult (α : Type) where
  | ok (a : α)
  | error (e : ApiError)
deriving Repr, DecidableEq

structure StatusResponse where
  success : Bool
  message : String
deriving Repr, DecidableEq

/-- The `DELETE /projects/{project_id}` endpoint. 422 for non-positive ids,
404 when the id does not resolve, and `400 Bad Request` with detail
"Project is already deleted" when the project is already soft-deleted (the
rejection the spec's error taxonomy labels Conflict). The response message is
abbreviated; the claims do not depend on its text. -/
def delete_project (db : DB) (pid : Int) (t : Nat) : DB × ApiResult StatusResponse :=
  if pid ≤ 0 then
    (db, .error (.unprocessable "Project ID must be a positive integer"))
  else
    match db.projects.find? (fun p => (p.id : Int) == pid) with
    | none => (db, .error (.notFound "Project not found"))
    | some p =>
      if !p.is_active then
        (db, .error (.badRequest "Project is already deleted"))
      else
        let r := projectDelete db pid.toNat t
        if r.2 then
          (r.1, .ok ⟨true, "Project has been deleted successfully"⟩)
        else
          (r.1, .error (.internal "Failed to delete project"))

/-! ## Helper lemmas for the claim theorems -/

theorem find?_map_same {α : Type} (l : List α) (f : α → α) (p : α → Bool)
    (hf : ∀ a, p (f a) = p a) : (l.map f).find? p = (l.find? p).map f := by
  induction l with
  | nil => rfl
  | cons a l ih =>
    by_cases hpa : p a
    · rw [List.map_cons, List.find?_cons_of_pos _ (by rw [hf a]; exact hpa),
        List.find?_cons_of_pos _ hpa]
      rfl
    · rw [List.map_cons,
        List.find?_cons_of_neg _ (by rw [hf a]; exact hpa),
        List.find?_cons_of_neg _ hpa, ih]

/-! ## Concrete fixtures used by witnesses and counterexamples -/

def dbEmpty : DB := { projects := [], chapters := [], scenes := [], nextId := 0 }

def wProject : Project :=
  { id := 1, title := "P", description := none, author := none, genre := none,
    target_word_count := some 80000, current_word_count := some 2,
    is_active := true, created_at := 0, updated_at := 0 }

def wChapter : Chapter :=
  { id := 2, title := "C", description := none, order_index := 1,
    word_count := some 2, is_completed := false, created_at := 0,
    updated_at := 0, project_id := 1 }

def wScene : Scene :=
  { id := 3, title := some "S", content := some "old words", summary := none,
    order_index := 1, word_count := some 2, notes := none,
    is_completed := false, created_at := 0, updated_at := 0, chapter_id := 2 }

def wDB : DB :=
  { projects := [wProject], chapters := [wChapter], scenes := [wScene],
    nextId := 4 }

def wProjectInactive : Project := {wProject with is_active := false}

def wDBInactive : DB :=
  { projects := [wProjectInactive], chapters := [], scenes := [], nextId := 2 }

/-! ## Claim theorems -/

/-- C4: The scene word count stored by `SceneCRUD.create`, and recomputed by
`SceneCRUD.update` whenever the kwargs contain `content`, equals the number of
non-empty whitespace-delimited tokens of the text (0 for null or empty text),
as computed by the spec-side `specWordCount`; and
`ComputeWordCount("") = 0`, `ComputeWordCount("  a   b  ") = 2`,
`ComputeWordCount(None) = 0`. -/
theorem c4_word_count_rule (db : DB) (cid sid t : Nat)
    (title content summary newContent : Option String) (s0 : Scene)
    (hf : db.scenes.find? (fun s => s.id == sid) = some s0) :
    (sceneCreate db cid title content summary t).2.word_count
        = some (specWordCount content : Int)
    ∧ ((sceneUpdate db sid [SceneField.content newContent] t).2.map
          (fun s => s.word_count))
        = some (some (specWordCount newContent : Int))
    ∧ pyWordCount (some "") = 0
    ∧ pyWordCount (some "  a   b  ") = 2
    ∧ pyWordCount none = 0 := by
  refine ⟨?_, ?_, by decide, by decide, rfl⟩
  · simp [sceneCreate, pyWordCount_eq_specWordCount]
  · simp [sceneUpdate, hf, sceneApplyFields, sceneSetField, sceneFieldIsContent,
      pyWordCount_eq_specWordCount]

theorem c4_word_count_rule_witness :
    wDB.scenes.find? (fun s => s.id == 3) = some wScene
    ∧ ((sceneUpdate wDB 3 [SceneField.content (some "x  y z")] 9).2.map
          (fun s => s.word_count))
        = some (some (specWordCount (some "x  y z") : Int))
    ∧ (sceneCreate wDB 2 none (some "a b") none 9).2.word_count
        = some (specWordCount (some "a b") : Int) := by
  have h := c4_word_count_rule wDB 2 3 9 none (some "a b") none
    (some "x  y z") wScene rfl
  exact ⟨rfl, h.2.1, h.1⟩

/-- C8: Every mutating core operation returns its null/false sentinel, and
leaves the store untouched, when the target id resolves to no entity:
update operations return `none`, the move and delete operations return
`false`, and in each case the database state is returned unchanged. -/
theorem c8_not_found_sentinels (db : DB) (pid cid sid n t : Nat)
    (fsP : List ProjectField) (fsC : List ChapterField) (fsS : List SceneField)
    (hp : db.projects.find? (fun p => p.id == pid) = none)
    (hc : db.chapters.find? (fun c => c.id == cid) = none)
    (hs : db.scenes.find? (fun s => s.id == sid) = none) :
    projectUpdate db pid fsP t = (db, none)
    ∧ chapterUpdate db cid fsC t = (db, none)
    ∧ sceneUpdate db sid fsS t = (db, none)
    ∧ chapterUpdateOrder db cid n t = (db, false)
    ∧ sceneUpdateOrder db sid n t = (db, false)
    ∧ projectDelete db pid t = (db, false)
    ∧ chapterDelete db cid t = (db, false)
    ∧ sceneDelete db sid t = (db, false) := by
  refine ⟨?_, ?_, ?_, ?_, ?_, ?_, ?_, ?_⟩ <;>
    simp [projectUpdate, chapterUpdate, sceneUpdate, chapterUpdateOrder,
      sceneUpdateOrder, projectDelete, chapterDelete, sceneDelete, hp, hc, hs]

theorem c8_not_found_sentinels_witness :
    dbEmpty.projects.find? (fun p => p.id == 1) = none
    ∧ projectUpdate dbEmpty 1 [] 0 = (dbEmpty, none)
    ∧ chapterUpdate dbEmpty 2 [] 0 = (dbEmpty, none)
    ∧ sceneUpdate dbEmpty 3 [] 0 = (dbEmpty, none)
    ∧ chapterUpdateOrder dbEmpty 2 1 0 = (dbEmpty, false)
    ∧ sceneUpdateOrder dbEmpty 3 1 0 = (dbEmpty, false)
    ∧ projectDelete dbEmpty 1 0 = (dbEmpty, false)
    ∧ chapterDelete dbEmpty 2 0 = (dbEmpty, false)
    ∧ sceneDelete dbEmpty 3 0 = (dbEmpty, false) := by
  have h := c8_not_found_sentinels dbEmpty 1 2 3 1 0 [] [] [] rfl rfl rfl
  exact ⟨rfl, h.1, h.2.1, h.2.2.1, h.2.2.2.1, h.2.2.2.2.1, h.2.2.2.2.2.1,
    h.2.2.2.2.2.2.1, h.2.2.2.2.2.2.2⟩

/-- C9: When the project resolved by `delete_project` is already soft-deleted
(`is_active = false`), the endpoint rejects the delete with the
already-deleted error (HTTP 400, detail "Project is already deleted" — the
case the spec's error taxonomy labels Conflict) instead of reporting a
successful deletion. -/
theorem c9_delete_already_deleted (db : DB) (pid : Int) (t : Nat) (p : Project)
    (hfind : db.projects.find? (fun q => (q.id : Int) == pid) = some p)
    (hpos : 0 < pid) (hinactive : p.is_active = false) :
    (delete_project db pid t).2
        = ApiResult.error (ApiError.badRequest "Project is already deleted")
    ∧ ∀ s, (delete_project db pid t).2 ≠ ApiResult.ok s := by
  have hnpos : ¬ pid ≤ 0 := by omega
  constructor
  · simp [delete_project, hnpos, hfind, hinactive]
  · intro s
    simp [delete_project, hnpos, hfind, hinactive]

theorem c9_delete_already_deleted_witness :
    (wDBInactive.projects.find? (fun q => (q.id : Int) == (1 : Int))
        = some wProjectInactive
      ∧ (0 : Int) < 1 ∧ wProjectInactive.is_active = false)
    ∧ (delete_project wDBInactive 1 5).2
        = ApiResult.error (ApiError.badRequest "Project is already deleted") := by
  have h := c9_delete_already_deleted wDBInactive 1 5 wProjectInactive rfl
    (by decide) rfl
  exact ⟨⟨rfl, by decide, rfl⟩, h.1⟩

/-- C7: `ProjectCRUD.delete` on an id resolving to an active project flips
`is_active` to false and returns `true`; afterwards the project is absent from
`get_all(active_only=True)`, still present in `get_all(active_only=False)` and
still returned by `get_by_id`, and no chapter or scene row is touched. -/
theorem c7_soft_delete (db : DB) (pid t : Nat) (p : Project)
    (hfind : db.projects.find? (fun q => q.id == pid) = some p)
    (hactive : p.is_active = true) :
    (projectDelete db pid t).2 = true
    ∧ (projectDelete db pid t).1.chapters = db.chapters
    ∧ (projectDelete db pid t).1.scenes = db.scenes
    ∧ (projectDelete db pid t).1.projects.length = db.projects.length
    ∧ projectGetById (projectDelete db pid t).1 pid
        = some {p with is_active := false, updated_at := t}
    ∧ (∀ q ∈ projectGetAll (projectDelete db pid t).1 true, q.id ≠ pid)
    ∧ {p with is_active := false, updated_at := t}
        ∈ projectGetAll (projectDelete db pid t).1 false := by
  have hpid : p.id = pid := by simpa using List.find?_some hfind
  have hpmem : p ∈ db.projects := List.mem_of_find?_eq_some hfind
  have hfframe : ∀ q : Project,
      (((fun q => if q.id == pid
          then {q with is_active := false, updated_at := t} else q) q).id == pid)
        = (q.id == pid) := by
    intro q
    by_cases h : q.id = pid <;> simp [h]
  refine ⟨?_, ?_, ?_, ?_, ?_, ?_, ?_⟩
  · simp [projectDelete, hfind]
  · simp [projectDelete, hfind]
  · simp [projectDelete, hfind]
  · simp [projectDelete, hfind]
  · simp only [projectDelete, hfind, projectGetById]
    rw [find?_map_same _ _ _ hfframe, hfind]
    simp [hpid]
  · intro q hq
    simp only [projectDelete, hfind, projectGetAll, if_true] at hq
    obtain ⟨hqmem, hqact⟩ := List.mem_filter.mp hq
    obtain ⟨orig, horig, rfl⟩ := List.mem_map.mp hqmem
    by_cases h : orig.id = pid
    · simp [h] at hqact
    · simp [h]
  · simp only [projectDelete, hfind, projectGetAll, if_false]
    have : {p with is_active := false, updated_at := t}
        = (fun q => if q.id == pid
            then {q with is_active := false, updated_at := t} else q) p := by
      simp [hpid]
    rw [this]
    exact List.mem_map_of_mem _ hpmem

theorem c7_soft_delete_witness :
    (wDB.projects.find? (fun q => q.id == 1) = some wProject
      ∧ wProject.is_active = true)
    ∧ (projectDelete wDB 1 9).2 = true
    ∧ projectGetById (projectDelete wDB 1 9).1 1
        = some {wProject with is_active := false, updated_at := 9}
    ∧ (projectDelete wDB 1 9).1.chapters = wDB.chapters
    ∧ (projectDelete wDB 1 9).1.scenes = wDB.scenes := by
  have h := c7_soft_delete wDB 1 9 wProject rfl rfl
  exact ⟨⟨rfl, rfl⟩, h.1, h.2.2.2.2.1, h.2.1, h.2.2.1⟩

/-! ## C5: what the generic update can and cannot touch -/

theorem chapterSetField_order_index (c : Chapter) (f : ChapterField) :
    (chapterSetField c f).order_index = c.order_index := by
  cases f <;> rfl

theorem chapterApplyFields_order_index (fs : List ChapterField) :
    ∀ c, (chapterApplyFields c fs).order_index = c.order_index := by
  induction fs with
  | nil => intro c; rfl
  | cons f fs ih =>
    intro c
    have h : chapterApplyFields c (f :: fs)
        = chapterApplyFields (chapterSetField c f) fs := rfl
    rw [h, ih, chapterSetField_order_index]

theorem sceneSetField_order_index (s : Scene) (f : SceneField) :
    (sceneSetField s f).order_index = s.order_index := by
  cases f <;> rfl

theorem sceneApplyFields_order_index (fs : List SceneField) :
    ∀ s, (sceneApplyFields s fs).order_index = s.order_index := by
  induction fs with
  | nil => intro s; rfl
  | cons f fs ih =>
    intro s
    have h : sceneApplyFields s (f :: fs)
        = sceneApplyFields (sceneSetField s f) fs := rfl
    rw [h, ih, sceneSetField_order_index]

theorem updateChapterWordCountScene_scenes (db : DB) (cid t : Nat) :
    (updateChapterWordCountScene db cid t).scenes = db.scenes := by
  cases hc : db.chapters.find? (fun c => c.id == cid) with
  | none => simp [updateChapterWordCountScene, hc]
  | some ch =>
    cases hp : db.projects.find? (fun p => p.id == ch.project_id) with
    | none => simp [updateChapterWordCountScene, hc, hp]
    | some q => simp [updateChapterWordCountScene, hc, hp]

/-- C5 counterexample: the claim says a generic update can never change
`created_at`, but `ChapterCRUD.update` guards `setattr` only with
`hasattr(chapter, key) and key != 'order_index'`, so a `created_at` kwargs
entry is written: updating chapter 2 with `{created_at: 999}` changes its
stored `created_at` from 0 to 999. -/
theorem c5_update_counterexample :
    ((chapterUpdate wDB 2 [ChapterField.created_at 999] 7).1.chapters.map
        (fun c => c.created_at)) = [999]
    ∧ wDB.chapters.map (fun c => c.created_at) = [0] :=
  ⟨rfl, rfl⟩

/-- C5 amended: through the generic update only `order_index` is protected
(for chapters and scenes; projects have no `order_index`): no field list can
change any row's `order_index`. Identifiers and `created_at` are *not*
protected — any other model attribute named in the kwargs is written — and
`updated_at` is always overwritten with the current time. -/
theorem c5_update_never_changes_order_index (db : DB) (cid sid t : Nat)
    (fsC : List ChapterField) (fsS : List SceneField) :
    (chapterUpdate db cid fsC t).1.chapters.map (fun c => c.order_index)
        = db.chapters.map (fun c => c.order_index)
    ∧ (sceneUpdate db sid fsS t).1.scenes.map (fun s => s.order_index)
        = db.scenes.map (fun s => s.order_index) := by
  constructor
  · cases hf : db.chapters.find? (fun c => c.id == cid) with
    | none => simp [chapterUpdate, hf]
    | some c0 =>
      simp only [chapterUpdate, hf]
      rw [List.map_map]
      refine List.map_congr_left (fun c _ => ?_)
      by_cases h : c.id = cid <;>
        simp [Function.comp, h, chapterApplyFields_order_index]
  · cases hf : db.scenes.find? (fun s => s.id == sid) with
    | none => simp [sceneUpdate, hf]
    | some s0 =>
      simp only [sceneUpdate, hf, updateChapterWordCountScene_scenes]
      rw [List.map_map]
      refine List.map_congr_left (fun s _ => ?_)
      by_cases h : s.id = sid
      · by_cases hcont : fsS.any sceneFieldIsContent <;>
          simp [Function.comp, h, hcont, sceneApplyFields_order_index]
      · simp [Function.comp, h]

/-! ## C2: the word-count rollup, evaluated on the spec's own scenario prefix

Creating a project, a chapter in it, and a scene with the 3-word content
"Scene content here": `SceneCRUD.create` commits the scene, then
`_update_chapter_word_count` assigns `chapter.word_count = 3` (pending,
unflushed because the application session has `autoflush=False`) and only
then issues the project aggregate, which still reads the chapter row's
committed word count 0. -/

def c2db1 : DB :=
  (projectCreate dbEmpty "Test Novel" (some "A test novel") none none 0).1

def c2db2 : DB := (chapterCreate c2db1 0 "Chapter 1" none 1).1

def c2db3 : DB :=
  (sceneCreate c2db2 1 (some "Opening") (some "Scene content here") none 2).1

/-- C2 fails on the code as wired: after the scene create, the chapter-level
rollup is correct (`chapter.word_count = 3` = its scenes' sum), but the
project's `current_word_count` stays 0 while the sum of its chapters' word
counts is 3 — the project half of the invariant is violated.
(`tests/integration/test_crud` asserts the invariant-satisfying totals, but
runs under a default `sessionmaker`, whose `autoflush=True` hides the stale
read.) -/
theorem c2_rollup_divergence :
    c2db3.chapters.map (fun c => c.word_count) = [some 3]
    ∧ sceneWcSumL c2db3.scenes 1 = 3
    ∧ chapterWcSumL c2db3.chapters 0 = 3
    ∧ c2db3.projects.map (fun p => p.current_word_count) = [some 0] :=
  ⟨rfl, rfl, rfl, rfl⟩

/-! ## C6: a generic field update that does not touch content -/

/-- The spec's word-count invariant, in the strong form the rollup writes:
every chapter's `word_count` is `some` of its scenes' sum, every project's
`current_word_count` is `some` of its chapters' sum. -/
def WcInv (db : DB) : Prop :=
  (∀ c ∈ db.chapters, c.word_count = some (sceneWcSumL db.scenes c.id))
  ∧ ∀ p ∈ db.projects, p.current_word_count = some (chapterWcSumL db.chapters p.id)

def sceneFieldIsWordCount : SceneField → Bool
  | .word_count _ => true
  | _ => false

def sceneFieldIsChapterId : SceneField → Bool
  | .chapter_id _ => true
  | _ => false

def chapterFieldIsWordCount : ChapterField → Bool
  | .word_count _ => true
  | _ => false

theorem sceneSetField_wc_frame (s : Scene) (f : SceneField)
    (hwc : sceneFieldIsWordCount f = false)
    (hcid : sceneFieldIsChapterId f = false) :
    (sceneSetField s f).word_count = s.word_count
    ∧ (sceneSetField s f).chapter_id = s.chapter_id := by
  cases f <;> simp_all [sceneFieldIsWordCount, sceneFieldIsChapterId, sceneSetField]

theorem sceneApplyFields_wc_frame (fs : List SceneField) :
    ∀ s, (∀ f ∈ fs, sceneFieldIsWordCount f = false ∧ sceneFieldIsChapterId f = false) →
      (sceneApplyFields s fs).word_count = s.word_count
      ∧ (sceneApplyFields s fs).chapter_id = s.chapter_id := by
  induction fs with
  | nil => intro s _; exact ⟨rfl, rfl⟩
  | cons f fs ih =>
    intro s hno
    have hf := hno f (by simp)
    have hstep := sceneSetField_wc_frame s f hf.1 hf.2
    have h : sceneApplyFields s (f :: fs)
        = sceneApplyFields (sceneSetField s f) fs := rfl
    rw [h]
    obtain ⟨hw, hc⟩ := ih (sceneSetField s f) (fun g hg => hno g (by simp [hg]))
    exact ⟨hw.trans hstep.1, hc.trans hstep.2⟩

theorem chapterSetField_wc_frame (c : Chapter) (f : ChapterField)
    (hwc : chapterFieldIsWordCount f = false) :
    (chapterSetField c f).word_count = c.word_count := by
  cases f <;> simp_all [chapterFieldIsWordCount, chapterSetField]

theorem chapterApplyFields_wc_frame (fs : List ChapterField) :
    ∀ c, (∀ f ∈ fs, chapterFieldIsWordCount f = false) →
      (chapterApplyFields c fs).word_count = c.word_count := by
  induction fs with
  | nil => intro c _; rfl
  | cons f fs ih =>
    intro c hno
    have h : chapterApplyFields c (f :: fs)
        = chapterApplyFields (chapterSetField c f) fs := rfl
    rw [h, ih (chapterSetField c f) (fun g hg => hno g (by simp [hg])),
      chapterSetField_wc_frame c f (hno f (by simp))]

/-- A row transformation that moves no scene across chapters and changes no
scene's word count leaves every chapter's scene sum unchanged. -/
theorem sceneWcSumL_congr (l : List Scene) (f : Scene → Scene)
    (h : ∀ s ∈ l, (f s).chapter_id = s.chapter_id ∧ (f s).word_count = s.word_count) :
    ∀ cid, sceneWcSumL (l.map f) cid = sceneWcSumL l cid := by
  induction l with
  | nil => intro cid; rfl
  | cons x l ih =>
    intro cid
    have hx := h x (by simp)
    have ihc := ih (fun s hs => h s (by simp [hs])) cid
    simp only [sceneWcSumL, List.map_cons, List.filter_cons, hx.1] at ihc ⊢
    by_cases hc : (x.chapter_id == cid) = true
    · rw [if_pos hc, if_pos hc]
      simp only [List.map_cons, List.sum_cons, hx.2, ihc]
    · rw [if_neg hc, if_neg hc]
      exact ihc

/-- Shape of `SceneCRUD.update` when the kwargs do not contain `content`. -/
theorem sceneUpdate_no_content_eq (db : DB) (sid : Nat) (fs : List SceneField)
    (t : Nat) (s0 : Scene)
    (hsf : db.scenes.find? (fun s => s.id == sid) = some s0)
    (hany : fs.any sceneFieldIsContent = false) :
    sceneUpdate db sid fs t
      = (updateChapterWordCountScene
          {db with scenes := db.scenes.map (fun s =>
            if s.id == sid then {sceneApplyFields s fs with updated_at := t} else s)}
          (sceneApplyFields s0 fs).chapter_id t,
         some {sceneApplyFields s0 fs with updated_at := t}) := by
  simp [sceneUpdate, hsf, hany]

/-- Value-level frame of `SceneCRUD._update_chapter_word_count` when the
word-count invariant already holds: all stored word-count values are
rewritten to what they already are, and the owning project's `updated_at` is
stamped. -/
theorem rollup_value_frame (db : DB) (cid t : Nat) (ch : Chapter)
    (hc : db.chapters.find? (fun c => c.id == cid) = some ch)
    (h1 : ∀ c ∈ db.chapters, c.word_count = some (sceneWcSumL db.scenes c.id))
    (h2 : ∀ p ∈ db.projects, p.current_word_count = some (chapterWcSumL db.chapters p.id)) :
    (updateChapterWordCountScene db cid t).chapters.map (fun c => c.word_count)
        = db.chapters.map (fun c => c.word_count)
    ∧ (updateChapterWordCountScene db cid t).projects.map
          (fun p => p.current_word_count)
        = db.projects.map (fun p => p.current_word_count)
    ∧ ∀ p ∈ (updateChapterWordCountScene db cid t).projects,
        p.id = ch.project_id → p.updated_at = t := by
  have hchapters : (updateChapterWordCountScene db cid t).chapters.map
      (fun c => c.word_count) = db.chapters.map (fun c => c.word_count) := by
    cases hp : db.projects.find? (fun p => p.id == ch.project_id) with
    | none =>
      simp only [updateChapterWordCountScene, hc, hp]
      rw [List.map_map]
      refine List.map_congr_left (fun c hcm => ?_)
      by_cases h : c.id = cid
      · simp [Function.comp, h, h1 c hcm]
      · simp [Function.comp, h]
    | some q =>
      simp only [updateChapterWordCountScene, hc, hp]
      rw [List.map_map]
      refine List.map_congr_left (fun c hcm => ?_)
      by_cases h : c.id = cid
      · simp [Function.comp, h, h1 c hcm]
      · simp [Function.comp, h]
  refine ⟨hchapters, ?_, ?_⟩
  · cases hp : db.projects.find? (fun p => p.id == ch.project_id) with
    | none => simp only [updateChapterWordCountScene, hc, hp]
    | some q =>
      simp only [updateChapterWordCountScene, hc, hp]
      rw [List.map_map]
      refine List.map_congr_left (fun p hpm => ?_)
      by_cases h : p.id = ch.project_id
      · simp [Function.comp, h, h2 p hpm]
      · simp [Function.comp, h]
  · cases hp : db.projects.find? (fun p => p.id == ch.project_id) with
    | none =>
      intro p hpm hpid
      simp only [updateChapterWordCountScene, hc, hp] at hpm
      exact absurd (by simp [hpid]) (List.find?_eq_none.mp hp p hpm)
    | some q =>
      intro p hpm hpid
      simp only [updateChapterWordCountScene, hc, hp] at hpm
      obtain ⟨orig, horig, rfl⟩ := List.mem_map.mp hpm
      by_cases h : orig.id = ch.project_id
      · simp [h]
      · simp only [beq_iff_eq, if_neg h] at hpid ⊢
        exact absurd hpid h

/-- C6 counterexample: a scene generic update whose field set does not touch
content still triggers the word-count rollup, which stamps the owning
project's `updated_at`: updating scene 3's title at time 5 changes
project 1's `updated_at` from 0 to 5, contradicting the claim that the
project's `updated_at` is unchanged. -/
theorem c6_counterexample :
    ((sceneUpdate wDB 3 [SceneField.title (some "T2")] 5).1.projects.map
        (fun p => p.updated_at)) = [5]
    ∧ wDB.projects.map (fun p => p.updated_at) = [0] :=
  ⟨rfl, rfl⟩

/-- C6 amended: a chapter generic field update triggers no rollup (the
projects table is untouched, and chapter word counts are unchanged when the
field set does not name `word_count`). A scene generic field update *does*
run the rollup unconditionally; when the field set touches neither `content`,
`word_count` nor `chapter_id` and the word-count invariant holds, every
stored chapter `word_count` and project `current_word_count` keeps its value,
but the owning project's `updated_at` is refreshed to the current time. -/
theorem c6_no_content_update_frame (db : DB) (cid sid t : Nat)
    (fsC : List ChapterField) (fsS : List SceneField)
    (hinv : WcInv db)
    (hC : ∀ f ∈ fsC, chapterFieldIsWordCount f = false)
    (hS : ∀ f ∈ fsS, sceneFieldIsContent f = false
        ∧ sceneFieldIsWordCount f = false ∧ sceneFieldIsChapterId f = false)
    (s0 : Scene) (hsf : db.scenes.find? (fun s => s.id == sid) = some s0)
    (ch : Chapter)
    (hcf : db.chapters.find? (fun c => c.id == s0.chapter_id) = some ch) :
    (chapterUpdate db cid fsC t).1.projects = db.projects
    ∧ (chapterUpdate db cid fsC t).1.chapters.map (fun c => c.word_count)
        = db.chapters.map (fun c => c.word_count)
    ∧ (sceneUpdate db sid fsS t).1.chapters.map (fun c => c.word_count)
        = db.chapters.map (fun c => c.word_count)
    ∧ (sceneUpdate db sid fsS t).1.projects.map (fun p => p.current_word_count)
        = db.projects.map (fun p => p.current_word_count)
    ∧ ∀ p ∈ (sceneUpdate db sid fsS t).1.projects,
        p.id = ch.project_id → p.updated_at = t := by
  have hany : fsS.any sceneFieldIsContent = false := by
    rw [List.any_eq_false]
    intro f hf
    simp [(hS f hf).1]
  have hframe : ∀ s, (sceneApplyFields s fsS).word_count = s.word_count
      ∧ (sceneApplyFields s fsS).chapter_id = s.chapter_id :=
    fun s => sceneApplyFields_wc_frame fsS s (fun f hf => ⟨(hS f hf).2.1, (hS f hf).2.2⟩)
  have hcid0 : (sceneApplyFields s0 fsS).chapter_id = s0.chapter_id := (hframe s0).2
  have hupd := sceneUpdate_no_content_eq db sid fsS t s0 hsf hany
  have hmapframe : ∀ s ∈ db.scenes,
      ((if s.id == sid then {sceneApplyFields s fsS with updated_at := t} else s)
        : Scene).chapter_id = s.chapter_id
      ∧ ((if s.id == sid then {sceneApplyFields s fsS with updated_at := t} else s)
        : Scene).word_count = s.word_count := by
    intro s _
    by_cases h : s.id = sid
    · simp [h, (hframe s).1, (hframe s).2]
    · simp [h]
  have hsums : ∀ c, sceneWcSumL (db.scenes.map (fun s =>
      if s.id == sid then {sceneApplyFields s fsS with updated_at := t} else s)) c
      = sceneWcSumL db.scenes c :=
    sceneWcSumL_congr db.scenes _ hmapframe
  have hroll := rollup_value_frame
    {db with scenes := db.scenes.map (fun s =>
      if s.id == sid then {sceneApplyFields s fsS with updated_at := t} else s)}
    (sceneApplyFields s0 fsS).chapter_id t ch
    (by rw [hcid0]; exact hcf)
    (by
      intro c hcm
      rw [hsums c.id]
      exact hinv.1 c hcm)
    (fun p hpm => hinv.2 p hpm)
  refine ⟨?_, ?_, ?_, ?_, ?_⟩
  · cases hf : db.chapters.find? (fun c => c.id == cid) with
    | none => simp [chapterUpdate, hf]
    | some c0 => simp [chapterUpdate, hf]
  · cases hf : db.chapters.find? (fun c => c.id == cid) with
    | none => simp [chapterUpdate, hf]
    | some c0 =>
      simp only [chapterUpdate, hf]
      rw [List.map_map]
      refine List.map_congr_left (fun c _ => ?_)
      by_cases h : c.id = cid
      · simp [Function.comp, h, chapterApplyFields_wc_frame fsC c hC]
      · simp [Function.comp, h]
  · rw [hupd]
    exact hroll.1
  · rw [hupd]
    exact hroll.2.1
  · rw [hupd]
    exact hroll.2.2

theorem c6_no_content_update_frame_witness :
    (wDB.scenes.find? (fun s => s.id == 3) = some wScene
      ∧ wDB.chapters.find? (fun c => c.id == wScene.chapter_id) = some wChapter
      ∧ WcInv wDB)
    ∧ (sceneUpdate wDB 3 [SceneField.title (some "T2")] 5).1.chapters.map
          (fun c => c.word_count)
        = wDB.chapters.map (fun c => c.word_count)
    ∧ (sceneUpdate wDB 3 [SceneField.title (some "T2")] 5).1.projects.map
          (fun p => p.current_word_count)
        = wDB.projects.map (fun p => p.current_word_count)
    ∧ (chapterUpdate wDB 2 [ChapterField.title "C2"] 5).1.projects
        = wDB.projects := by
  have hinv : WcInv wDB := by
    constructor
    · intro c hc
      simp only [wDB, List.mem_singleton] at hc
      subst hc
      rfl
    · intro p hp
      simp only [wDB, List.mem_singleton] at hp
      subst hp
      rfl
  have h := c6_no_content_update_frame wDB 2 3 5 [ChapterField.title "C2"]
    [SceneField.title (some "T2")] hinv
    (by intro f hf; simp only [List.mem_singleton] at hf; subst hf; rfl)
    (by intro f hf; simp only [List.mem_singleton] at hf; subst hf;
        exact ⟨rfl, rfl, rfl⟩)
    wScene rfl wChapter rfl
  exact ⟨⟨rfl, rfl, hinv⟩, h.2.2.1, h.2.2.2.1, h.1⟩

/-! ## C3 / C10: the move operation row by row

The before/after rows are paired positionally with `List.Forall₂` (both
update paths are row maps, so row `j` after the call is row `j` before it).
`ch`/`sc` is the moved row as resolved by the initial `get_by_id` query. -/

/-- Effect of `ChapterCRUD.update_order` on each row's `order_index`, as the
spec describes it: the moved row lands on `new_order`; a sibling strictly
between the old and new slot shifts by one toward the hole; every other row
keeps its index. -/
def chapterMoveOrderSpec (ch : Chapter) (cid new_order : Nat) (b a : Chapter) : Prop :=
  (b.id = cid → a.order_index = new_order)
  ∧ (b.id ≠ cid → b.project_id = ch.project_id → ch.order_index < b.order_index →
      b.order_index ≤ new_order → a.order_index = b.order_index - 1)
  ∧ (b.id ≠ cid → b.project_id = ch.project_id → new_order ≤ b.order_index →
      b.order_index < ch.order_index → a.order_index = b.order_index + 1)
  ∧ (b.id ≠ cid
      → ¬(b.project_id = ch.project_id ∧ ch.order_index < b.order_index
          ∧ b.order_index ≤ new_order)
      → ¬(b.project_id = ch.project_id ∧ new_order ≤ b.order_index
          ∧ b.order_index < ch.order_index)
      → a.order_index = b.order_index)

/-- Same for `SceneCRUD.update_order`. -/
def sceneMoveOrderSpec (sc : Scene) (sid new_order : Nat) (b a : Scene) : Prop :=
  (b.id = sid → a.order_index = new_order)
  ∧ (b.id ≠ sid → b.chapter_id = sc.chapter_id → sc.order_index < b.order_index →
      b.order_index ≤ new_order → a.order_index = b.order_index - 1)
  ∧ (b.id ≠ sid → b.chapter_id = sc.chapter_id → new_order ≤ b.order_index →
      b.order_index < sc.order_index → a.order_index = b.order_index + 1)
  ∧ (b.id ≠ sid
      → ¬(b.chapter_id = sc.chapter_id ∧ sc.order_index < b.order_index
          ∧ b.order_index ≤ new_order)
      → ¬(b.chapter_id = sc.chapter_id ∧ new_order ≤ b.order_index
          ∧ b.order_index < sc.order_index)
      → a.order_index = b.order_index)

/-- C3: On an existing chapter/scene with `1 ≤ new_order ≤ sibling count`,
`update_order` reports success and moves indices exactly as the spec says:
down-shift on `(old, new]` when moving down, up-shift on `[new, old)` when
moving up, nothing when `new = old`, and the moved row itself gets
`new_order`. -/
theorem c3_move_functional :
    (∀ (db : DB) (cid new_order t : Nat) (ch : Chapter),
      db.chapters.find? (fun c => c.id == cid) = some ch →
      1 ≤ new_order →
      new_order ≤ (db.chapters.filter
        (fun c => c.project_id == ch.project_id)).length →
      (chapterUpdateOrder db cid new_order t).2 = true
      ∧ List.Forall₂ (chapterMoveOrderSpec ch cid new_order)
          db.chapters (chapterUpdateOrder db cid new_order t).1.chapters)
    ∧ (∀ (db : DB) (sid new_order t : Nat) (sc : Scene),
      db.scenes.find? (fun s => s.id == sid) = some sc →
      1 ≤ new_order →
      new_order ≤ (db.scenes.filter
        (fun s => s.chapter_id == sc.chapter_id)).length →
      (sceneUpdateOrder db sid new_order t).2 = true
      ∧ List.Forall₂ (sceneMoveOrderSpec sc sid new_order)
          db.scenes (sceneUpdateOrder db sid new_order t).1.scenes) := by
  constructor
  · intro db cid new_order t ch hf _ _
    refine ⟨by simp [chapterUpdateOrder, hf], ?_⟩
    by_cases hbr : new_order > ch.order_index
    · have hres : (chapterUpdateOrder db cid new_order t).1.chapters
          = (db.chapters.map (fun c =>
              if c.project_id = ch.project_id ∧ ch.order_index < c.order_index
                  ∧ c.order_index ≤ new_order then
                {c with order_index := c.order_index - 1, updated_at := t} else c)).map
            (fun c => if c.id == cid then
              {c with order_index := new_order, updated_at := t} else c) := by
        simp [chapterUpdateOrder, hf, hbr]
      rw [hres, List.map_map, List.forall₂_map_right_iff, List.forall₂_same]
      intro b _
      refine ⟨?_, ?_, ?_, ?_⟩
      · intro hbid
        by_cases hr : b.project_id = ch.project_id ∧ ch.order_index < b.order_index
            ∧ b.order_index ≤ new_order <;>
          simp [Function.comp, hr, hbid]
      · intro hbid hproj hlt hle
        have hr : b.project_id = ch.project_id ∧ ch.order_index < b.order_index
            ∧ b.order_index ≤ new_order := ⟨hproj, hlt, hle⟩
        simp [Function.comp, hr, hbid]
      · intro hbid hproj hle hlt
        omega
      · intro hbid hr1 hr2
        simp [Function.comp, hr1, hbid]
    · have hres : (chapterUpdateOrder db cid new_order t).1.chapters
          = (db.chapters.map (fun c =>
              if c.project_id = ch.project_id ∧ new_order ≤ c.order_index
                  ∧ c.order_index < ch.order_index then
                {c with order_index := c.order_index + 1, updated_at := t} else c)).map
            (fun c => if c.id == cid then
              {c with order_index := new_order, updated_at := t} else c) := by
        simp [chapterUpdateOrder, hf, hbr]
      rw [hres, List.map_map, List.forall₂_map_right_iff, List.forall₂_same]
      intro b _
      refine ⟨?_, ?_, ?_, ?_⟩
      · intro hbid
        by_cases hr : b.project_id = ch.project_id ∧ new_order ≤ b.order_index
            ∧ b.order_index < ch.order_index <;>
          simp [Function.comp, hr, hbid]
      · intro hbid hproj hlt hle
        omega
      · intro hbid hproj hle hlt
        have hr : b.project_id = ch.project_id ∧ new_order ≤ b.order_index
            ∧ b.order_index < ch.order_index := ⟨hproj, hle, hlt⟩
        simp [Function.comp, hr, hbid]
      · intro hbid hr1 hr2
        simp [Function.comp, hr2, hbid]
  · intro db sid new_order t sc hf _ _
    refine ⟨by simp [sceneUpdateOrder, hf], ?_⟩
    by_cases hbr : new_order > sc.order_index
    · have hres : (sceneUpdateOrder db sid new_order t).1.scenes
          = (db.scenes.map (fun s =>
              if s.chapter_id = sc.chapter_id ∧ sc.order_index < s.order_index
                  ∧ s.order_index ≤ new_order then
                {s with order_index := s.order_index - 1, updated_at := t} else s)).map
            (fun s => if s.id == sid then
              {s with order_index := new_order, updated_at := t} else s) := by
        simp [sceneUpdateOrder, hf, hbr]
      rw [hres, List.map_map, List.forall₂_map_right_iff, List.forall₂_same]
      intro b _
      refine ⟨?_, ?_, ?_, ?_⟩
      · intro hbid
        by_cases hr : b.chapter_id = sc.chapter_id ∧ sc.order_index < b.order_index
            ∧ b.order_index ≤ new_order <;>
          simp [Function.comp, hr, hbid]
      · intro hbid hproj hlt hle
        have hr : b.chapter_id = sc.chapter_id ∧ sc.order_index < b.order_index
            ∧ b.order_index ≤ new_order := ⟨hproj, hlt, hle⟩
        simp [Function.comp, hr, hbid]
      · intro hbid hproj hle hlt
        omega
      · intro hbid hr1 hr2
        simp [Function.comp, hr1, hbid]
    · have hres : (sceneUpdateOrder db sid new_order t).1.scenes
          = (db.scenes.map (fun s =>
              if s.chapter_id = sc.chapter_id ∧ new_order ≤ s.order_index
                  ∧ s.order_index < sc.order_index then
                {s with order_index := s.order_index + 1, updated_at := t} else s)).map
            (fun s => if s.id == sid then
              {s with order_index := new_order, updated_at := t} else s) := by
        simp [sceneUpdateOrder, hf, hbr]
      rw [hres, List.map_map, List.forall₂_map_right_iff, List.forall₂_same]
      intro b _
      refine ⟨?_, ?_, ?_, ?_⟩
      · intro hbid
        by_cases hr : b.chapter_id = sc.chapter_id ∧ new_order ≤ b.order_index
            ∧ b.order_index < sc.order_index <;>
          simp [Function.comp, hr, hbid]
      · intro hbid hproj hlt hle
        omega
      · intro hbid hproj hle hlt
        have hr : b.chapter_id = sc.chapter_id ∧ new_order ≤ b.order_index
            ∧ b.order_index < sc.order_index := ⟨hproj, hle, hlt⟩
        simp [Function.comp, hr, hbid]
      · intro hbid hr1 hr2
        simp [Function.comp, hr2, hbid]

def mChapterA : Chapter :=
  { id := 10, title := "A", description := none, order_index := 1,
    word_count := some 0, is_completed := false, created_at := 0,
    updated_at := 0, project_id := 1 }

def mChapterB : Chapter := {mChapterA with id := 11, title := "B", order_index := 2}

def mChapterC : Chapter := {mChapterA with id := 12, title := "C", order_index := 3}

def mSceneA : Scene :=
  { id := 13, title := some "sA", content := none, summary := none,
    order_index := 1, word_count := some 0, notes := none,
    is_completed := false, created_at := 0, updated_at := 0, chapter_id := 10 }

def mSceneB : Scene := {mSceneA with id := 14, order_index := 2}

def mSceneC : Scene := {mSceneA with id := 15, order_index := 3}

def mDB : DB :=
  { projects := [wProject], chapters := [mChapterA, mChapterB, mChapterC],
    scenes := [mSceneA, mSceneB, mSceneC], nextId := 20 }

theorem c3_move_functional_witness :
    (mDB.chapters.find? (fun c => c.id == 10) = some mChapterA
      ∧ 1 ≤ 3
      ∧ 3 ≤ (mDB.chapters.filter
          (fun c => c.project_id == mChapterA.project_id)).length
      ∧ mDB.scenes.find? (fun s => s.id == 15) = some mSceneC
      ∧ 1 ≤ 1
      ∧ 1 ≤ (mDB.scenes.filter
          (fun s => s.chapter_id == mSceneC.chapter_id)).length)
    ∧ (chapterUpdateOrder mDB 10 3 7).2 = true
    ∧ List.Forall₂ (chapterMoveOrderSpec mChapterA 10 3)
        mDB.chapters (chapterUpdateOrder mDB 10 3 7).1.chapters
    ∧ (sceneUpdateOrder mDB 15 1 7).2 = true
    ∧ List.Forall₂ (sceneMoveOrderSpec mSceneC 15 1)
        mDB.scenes (sceneUpdateOrder mDB 15 1 7).1.scenes := by
  have hc := c3_move_functional.1 mDB 10 3 7 mChapterA rfl (by decide) (by decide)
  have hs := c3_move_functional.2 mDB 15 1 7 mSceneC rfl (by decide) (by decide)
  exact ⟨⟨rfl, by decide, by decide, rfl, by decide, by decide⟩,
    hc.1, hc.2, hs.1, hs.2⟩

/-- C10 counterexample: the claim says the shifted siblings keep their
`updated_at`, but `updated_at` is declared with `onupdate=func.now()`
(models/novel.py lines 37 and 62), which SQLAlchemy compiles into the SET
clause of the bulk shift `UPDATE`. Moving chapter 10 from position 1 to 3 at
time 7 shifts siblings 11 and 12 and stamps their `updated_at` from 0 to 7. -/
theorem c10_counterexample :
    (chapterUpdateOrder mDB 10 3 7).1.chapters.map (fun c => (c.id, c.updated_at))
        = [(10, 7), (11, 7), (12, 7)]
    ∧ mDB.chapters.map (fun c => (c.id, c.updated_at))
        = [(10, 0), (11, 0), (12, 0)] :=
  ⟨rfl, rfl⟩

/-- Frame of `ChapterCRUD.update_order` on each chapter row: everything but
`order_index` and `updated_at` is preserved on every row; `updated_at` is
stamped on the moved row and — through the column's `onupdate` — on every
shifted sibling; a row that is neither the moved row nor in a shift range
keeps both its `order_index` and its `updated_at`. -/
def chapterMoveFrameSpec (ch : Chapter) (cid new_order t : Nat) (b a : Chapter) : Prop :=
  a.id = b.id ∧ a.title = b.title ∧ a.description = b.description
  ∧ a.word_count = b.word_count ∧ a.is_completed = b.is_completed
  ∧ a.created_at = b.created_at ∧ a.project_id = b.project_id
  ∧ (b.id = cid → a.updated_at = t)
  ∧ (b.id ≠ cid → b.project_id = ch.project_id → ch.order_index < b.order_index →
      b.order_index ≤ new_order → a.updated_at = t)
  ∧ (b.id ≠ cid → b.project_id = ch.project_id → new_order ≤ b.order_index →
      b.order_index < ch.order_index → a.updated_at = t)
  ∧ (b.id ≠ cid
      → ¬(b.project_id = ch.project_id ∧ ch.order_index < b.order_index
          ∧ b.order_index ≤ new_order)
      → ¬(b.project_id = ch.project_id ∧ new_order ≤ b.order_index
          ∧ b.order_index < ch.order_index)
      → a.order_index = b.order_index ∧ a.updated_at = b.updated_at)

/-- Same for `SceneCRUD.update_order` on each scene row. -/
def sceneMoveFrameSpec (sc : Scene) (sid new_order t : Nat) (b a : Scene) : Prop :=
  a.id = b.id ∧ a.title = b.title ∧ a.content = b.content
  ∧ a.summary = b.summary ∧ a.word_count = b.word_count ∧ a.notes = b.notes
  ∧ a.is_completed = b.is_completed ∧ a.created_at = b.created_at
  ∧ a.chapter_id = b.chapter_id
  ∧ (b.id = sid → a.updated_at = t)
  ∧ (b.id ≠ sid → b.chapter_id = sc.chapter_id → sc.order_index < b.order_index →
      b.order_index ≤ new_order → a.updated_at = t)
  ∧ (b.id ≠ sid → b.chapter_id = sc.chapter_id → new_order ≤ b.order_index →
      b.order_index < sc.order_index → a.updated_at = t)
  ∧ (b.id ≠ sid
      → ¬(b.chapter_id = sc.chapter_id ∧ sc.order_index < b.order_index
          ∧ b.order_index ≤ new_order)
      → ¬(b.chapter_id = sc.chapter_id ∧ new_order ≤ b.order_index
          ∧ b.order_index < sc.order_index)
      → a.order_index = b.order_index ∧ a.updated_at = b.updated_at)

/-- C10 amended: a successful move persists nothing beyond the `order_index`
of the moved row and of the shifted siblings and the `updated_at` of the
moved row *and of the shifted siblings* (the `updated_at` column's
`onupdate=func.now()` fires on every row the bulk shift `UPDATE` touches):
the other two tables and the id counter are untouched, no chapter/scene row
is created or deleted, no word count changes, and every row outside the
shift range keeps both its `order_index` and its `updated_at`. -/
theorem c10_move_frame :
    (∀ (db : DB) (cid new_order t : Nat) (ch : Chapter),
      db.chapters.find? (fun c => c.id == cid) = some ch →
      (chapterUpdateOrder db cid new_order t).1.projects = db.projects
      ∧ (chapterUpdateOrder db cid new_order t).1.scenes = db.scenes
      ∧ (chapterUpdateOrder db cid new_order t).1.nextId = db.nextId
      ∧ List.Forall₂ (chapterMoveFrameSpec ch cid new_order t)
          db.chapters (chapterUpdateOrder db cid new_order t).1.chapters)
    ∧ (∀ (db : DB) (sid new_order t : Nat) (sc : Scene),
      db.scenes.find? (fun s => s.id == sid) = some sc →
      (sceneUpdateOrder db sid new_order t).1.projects = db.projects
      ∧ (sceneUpdateOrder db sid new_order t).1.chapters = db.chapters
      ∧ (sceneUpdateOrder db sid new_order t).1.nextId = db.nextId
      ∧ List.Forall₂ (sceneMoveFrameSpec sc sid new_order t)
          db.scenes (sceneUpdateOrder db sid new_order t).1.scenes) := by
  constructor
  · intro db cid new_order t ch hf
    refine ⟨?_, ?_, ?_, ?_⟩
    · by_cases hbr : new_order > ch.order_index <;>
        simp [chapterUpdateOrder, hf, hbr]
    · by_cases hbr : new_order > ch.order_index <;>
        simp [chapterUpdateOrder, hf, hbr]
    · by_cases hbr : new_order > ch.order_index <;>
        simp [chapterUpdateOrder, hf, hbr]
    · by_cases hbr : new_order > ch.order_index
      · have hres : (chapterUpdateOrder db cid new_order t).1.chapters
            = (db.chapters.map (fun c =>
                if c.project_id = ch.project_id ∧ ch.order_index < c.order_index
                    ∧ c.order_index ≤ new_order then
                  {c with order_index := c.order_index - 1, updated_at := t}
                else c)).map
              (fun c => if c.id == cid then
                {c with order_index := new_order, updated_at := t} else c) := by
          simp [chapterUpdateOrder, hf, hbr]
        rw [hres, List.map_map, List.forall₂_map_right_iff, List.forall₂_same]
        intro b _
        by_cases hbid : b.id = cid <;>
          by_cases hr : b.project_id = ch.project_id ∧ ch.order_index < b.order_index
              ∧ b.order_index ≤ new_order <;>
          simp [chapterMoveFrameSpec, Function.comp, hr, hbid] <;>
          intros <;> omega
      · have hres : (chapterUpdateOrder db cid new_order t).1.chapters
            = (db.chapters.map (fun c =>
                if c.project_id = ch.project_id ∧ new_order ≤ c.order_index
                    ∧ c.order_index < ch.order_index then
                  {c with order_index := c.order_index + 1, updated_at := t}
                else c)).map
              (fun c => if c.id == cid then
                {c with order_index := new_order, updated_at := t} else c) := by
          simp [chapterUpdateOrder, hf, hbr]
        rw [hres, List.map_map, List.forall₂_map_right_iff, List.forall₂_same]
        intro b _
        by_cases hbid : b.id = cid <;>
          by_cases hr : b.project_id = ch.project_id ∧ new_order ≤ b.order_index
              ∧ b.order_index < ch.order_index <;>
          simp [chapterMoveFrameSpec, Function.comp, hr, hbid] <;>
          intros <;> omega
  · intro db sid new_order t sc hf
    refine ⟨?_, ?_, ?_, ?_⟩
    · by_cases hbr : new_order > sc.order_index <;>
        simp [sceneUpdateOrder, hf, hbr]
    · by_cases hbr : new_order > sc.order_index <;>
        simp [sceneUpdateOrder, hf, hbr]
    · by_cases hbr : new_order > sc.order_index <;>
        simp [sceneUpdateOrder, hf, hbr]
    · by_cases hbr : new_order > sc.order_index
      · have hres : (sceneUpdateOrder db sid new_order t).1.scenes
            = (db.scenes.map (fun s =>
                if s.chapter_id = sc.chapter_id ∧ sc.order_index < s.order_index
                    ∧ s.order_index ≤ new_order then
                  {s with order_index := s.order_index - 1, updated_at := t}
                else s)).map
              (fun s => if s.id == sid then
                {s with order_index := new_order, updated_at := t} else s) := by
          simp [sceneUpdateOrder, hf, hbr]
        rw [hres, List.map_map, List.forall₂_map_right_iff, List.forall₂_same]
        intro b _
        by_cases hbid : b.id = sid <;>
          by_cases hr : b.chapter_id = sc.chapter_id ∧ sc.order_index < b.order_index
              ∧ b.order_index ≤ new_order <;>
          simp [sceneMoveFrameSpec, Function.comp, hr, hbid] <;>
          intros <;> omega
      · have hres : (sceneUpdateOrder db sid new_order t).1.scenes
            = (db.scenes.map (fun s =>
                if s.chapter_id = sc.chapter_id ∧ new_order ≤ s.order_index
                    ∧ s.order_index < sc.order_index then
                  {s with order_index := s.order_index + 1, updated_at := t}
                else s)).map
              (fun s => if s.id == sid then
                {s with order_index := new_order, updated_at := t} else s) := by
          simp [sceneUpdateOrder, hf, hbr]
        rw [hres, List.map_map, List.forall₂_map_right_iff, List.forall₂_same]
        intro b _
        by_cases hbid : b.id = sid <;>
          by_cases hr : b.chapter_id = sc.chapter_id ∧ new_order ≤ b.order_index
              ∧ b.order_index < sc.order_index <;>
          simp [sceneMoveFrameSpec, Function.comp, hr, hbid] <;>
          intros <;> omega

theorem c10_move_frame_witness :
    (mDB.chapters.find? (fun c => c.id == 11) = some mChapterB
      ∧ mDB.scenes.find? (fun s => s.id == 14) = some mSceneB)
    ∧ (chapterUpdateOrder mDB 11 1 7).1.projects = mDB.projects
    ∧ (chapterUpdateOrder mDB 11 1 7).1.scenes = mDB.scenes
    ∧ List.Forall₂ (chapterMoveFrameSpec mChapterB 11 1 7)
        mDB.chapters (chapterUpdateOrder mDB 11 1 7).1.chapters
    ∧ (sceneUpdateOrder mDB 14 3 7).1.chapters = mDB.chapters
    ∧ List.Forall₂ (sceneMoveFrameSpec mSceneB 14 3 7)
        mDB.scenes (sceneUpdateOrder mDB 14 3 7).1.scenes := by
  have hc := c10_move_frame.1 mDB 11 1 7 mChapterB rfl
  have hs := c10_move_frame.2 mDB 14 3 7 mSceneB rfl
  exact ⟨⟨rfl, rfl⟩, hc.1, hc.2.1, hc.2.2.2, hs.2.1, hs.2.2.2⟩

/-- C1: Starting from an empty sibling group, after any sequence of create
(Append), delete (Remove) and Move operations in which every Move targets an
existing item with `1 ≤ new_order ≤ current sibling count`, the
`order_index` values of the group are exactly `{1..count}`: every index in
that range occurs exactly once and no other value occurs (no gaps, no
duplicates). -/
theorem c1_sibling_order_density (ops : List GroupOp)
    (hv : validSeq groupEmpty ops) :
    Dense (runOps groupEmpty ops).items := by
  have h0 : GroupWf groupEmpty :=
    ⟨List.nodup_nil, fun it h => absurd h (List.not_mem_nil it)⟩
  have hd0 : Dense groupEmpty.items := by
    intro k
    simp only [groupEmpty, cntO, List.countP_nil, List.length_nil]
    rw [if_neg (by omega)]
  exact (runOps_preserves ops groupEmpty h0 hd0 hv).2

theorem c1_sibling_order_density_witness :
    validSeq groupEmpty
        [GroupOp.create, GroupOp.create, GroupOp.create,
         GroupOp.move 0 3, GroupOp.remove 1, GroupOp.move 2 1]
    ∧ Dense (runOps groupEmpty
        [GroupOp.create, GroupOp.create, GroupOp.create,
         GroupOp.move 0 3, GroupOp.remove 1, GroupOp.move 2 1]).items :=
  ⟨by decide, c1_sibling_order_density _ (by decide)⟩

end Rayuela
